import Mathlib

/-!
# Verification of the journey inference engine

Shallow embedding of `src/services/journeyCalculator.ts` (a TypeScript module)
and proofs about its two entry points `calculateJourneyCounts` and
`calculateJourneyList`.

Modelling conventions:
* JavaScript numbers are modelled as integers (`Int`): every quantity the
  engine manipulates (epoch seconds, hour counts, differences) is integral
  in all claims under study; fractional values, `NaN` and `Infinity` are
  out of scope of this development.
* A JavaScript `number | null` is `Option Int`.  JavaScript truthiness of
  such a value (`!x` tests) is `jsTruthyI`: `null` and `0` are falsy.
* JavaScript plain objects used as string-keyed dictionaries
  (`Record<string, T>`) are modelled as insertion-ordered association lists
  (`List (String × T)`): a new key is appended, an existing key is updated
  in place.  (JavaScript additionally fronts integer-like keys during
  iteration; no theorem below depends on iteration order.)
* String primitives (`trim`, `split`, `endsWith`, …) are re-implemented on
  character lists so that all definitions compute by structural recursion.
* `Array.prototype.sort` with the comparator used by the source (difference
  of normalized entry times, with `|| 0` defaulting) is modelled as a stable
  insertion sort on the same key.
* `new Date(string)` is modelled on the ECMAScript date-time string format
  `YYYY-MM-DD[ T]HH:MM[:SS[.fff]]` with optional `Z`/`±HH:MM` offset
  (the space separator is the V8 extension the source's SQL-style formats
  rely on); zoneless strings are taken as UTC (the host timezone is
  modelled as UTC); fractional seconds are truncated; years before 1970 and
  the other implementation-defined formats are modelled as unparseable.
  No theorem below depends on the concrete epoch value of a parsed string.
-/

/-! ## JavaScript value helpers -/

/-- Truthiness of a JavaScript `number | null`: `null` and `0` are falsy. -/
def jsTruthyI : Option Int → Bool
  | none => false
  | some v => decide (v ≠ 0)

/-- Truthiness of a JavaScript `string | null`: `null` and `""` are falsy. -/
def jsTruthyStr : Option String → Bool
  | none => false
  | some s => decide (s ≠ "")

/-- Lookup in a JavaScript-object-as-dictionary (`obj[k]`). -/
def lookupA {α : Type} : List (String × α) → String → Option α
  | [], _ => none
  | (k', v) :: rest, k => if k' = k then some v else lookupA rest k

/-- `obj[k] = f (obj[k])`: update a present key in place, append a new key. -/
def upsertWith {α : Type} : List (String × α) → String → (Option α → α) → List (String × α)
  | [], k, f => [(k, f none)]
  | (k', v) :: rest, k, f =>
    if k' = k then (k', f (some v)) :: rest else (k', v) :: upsertWith rest k f

/-- `obj[k] = v`. -/
def upsertA {α : Type} (m : List (String × α)) (k : String) (v : α) : List (String × α) :=
  upsertWith m k (fun _ => v)

/-- JavaScript `Set.add` on an insertion-ordered list model of a `Set`. -/
def addUnique (l : List String) (s : String) : List String :=
  if s ∈ l then l else l ++ [s]

/-- Sum of the values of a string-keyed dictionary of numbers
(`Object.values(obj).reduce((a, b) => a + b, 0)`). -/
def sumValues (m : List (String × Nat)) : Nat :=
  (m.map (fun p => p.2)).sum

/-! ## Character-list string primitives -/

/-- JavaScript `String.prototype.trim` (whitespace stripped on both ends). -/
def jsTrim (s : String) : String :=
  ⟨(((s.data.dropWhile Char.isWhitespace).reverse.dropWhile Char.isWhitespace).reverse)⟩

/-- Split on a single-character separator (accumulator-based, structural). -/
def splitCharAux (sep : Char) : List Char → List Char → List (List Char)
  | [], acc => [acc.reverse]
  | c :: rest, acc =>
    if c = sep then acc.reverse :: splitCharAux sep rest []
    else splitCharAux sep rest (c :: acc)

/-- JavaScript `s.split(sep)` for a one-character separator. -/
def splitChar (s : String) (sep : Char) : List String :=
  (splitCharAux sep s.data []).map (fun l => ⟨l⟩)

/-- JavaScript `s.split("||")` (the journey-key separator). -/
def splitPipesAux : List Char → List Char → List (List Char)
  | '|' :: '|' :: rest, acc => acc.reverse :: splitPipesAux rest []
  | c :: rest, acc => splitPipesAux rest (c :: acc)
  | [], acc => [acc.reverse]

def splitPipes (s : String) : List String :=
  (splitPipesAux s.data []).map (fun l => ⟨l⟩)

/-- JavaScript `s.endsWith(c)` for a one-character suffix. -/
def endsWithChar (s : String) (c : Char) : Bool :=
  s.data.getLast? == some c

/-- Drop the final character of a string (`s.slice(0, -1)`). -/
def dropLastChar (s : String) : String :=
  ⟨s.data.dropLast⟩

/-- `s.includes(c)` on the character list. -/
def containsChar (s : String) (c : Char) : Bool :=
  s.data.contains c

/-- String made only of digits, nonempty. -/
def isDigits (s : String) : Bool :=
  decide (s.data.length > 0) && s.data.all Char.isDigit

/-- Numeric value of a digit string (caller checks `isDigits`). -/
def digitsToNat (s : String) : Nat :=
  s.data.foldl (fun a c => a * 10 + (c.toNat - 48)) 0

/-- Code-point-wise lexicographic comparison (JavaScript default string
sort order, UTF-16 modelled as code points). -/
def leChars : List Char → List Char → Bool
  | [], _ => true
  | _ :: _, [] => false
  | a :: as, b :: bs =>
    if a = b then leChars as bs else decide (a.toNat < b.toNat)

/-- Insert a string into an ascending list (helper for the string sort). -/
def insertString (s : String) : List String → List String
  | [] => [s]
  | x :: xs => if leChars s.data x.data then s :: x :: xs else x :: insertString s xs

/-- `Array.from(set).sort()` on strings (JavaScript default string sort). -/
def sortStrings (l : List String) : List String :=
  l.foldr insertString []

/-! ## Timestamp model (`convertToUnixTimestamp`) -/

/-- A heterogeneous timestamp value as accepted by the source
(`entry_event_time: any`): `null`/`undefined`, a number (epoch seconds),
a `Date` (milliseconds since epoch), or a string. -/
inductive TimeVal where
  | null : TimeVal
  | num : Int → TimeVal
  | date : Int → TimeVal
  | str : String → TimeVal
deriving DecidableEq

def isLeapYear (y : Nat) : Bool :=
  (y % 4 == 0 && y % 100 != 0) || (y % 400 == 0)

def daysInMonth (y m : Nat) : Nat :=
  if m = 2 then (if isLeapYear y then 29 else 28)
  else if m = 4 ∨ m = 6 ∨ m = 9 ∨ m = 11 then 30
  else 31

/-- Number of leap years in `[1, y]`. -/
def leapsUpTo (y : Nat) : Nat :=
  y / 4 + y / 400 - y / 100

/-- Days from the first day of month 1 of year `y` to the first day of
month `m` of year `y`. -/
def monthOffset (y m : Nat) : Nat :=
  (List.range (m - 1)).foldl (fun a i => a + daysInMonth y (i + 1)) 0

/-- Days since 1970-01-01 of a civil date, `none` when out of the modelled
range or not a real calendar date. -/
def daysFromEpochDate (y m d : Nat) : Option Nat :=
  if y < 1970 ∨ m = 0 ∨ m > 12 ∨ d = 0 ∨ d > daysInMonth y m then none
  else some ((y - 1970) * 365 + (leapsUpTo (y - 1) - leapsUpTo 1969) + monthOffset y m + (d - 1))

/-- Parse `YYYY-MM-DD` into days since the epoch. -/
def parseDatePart (s : String) : Option Nat :=
  match splitChar s '-' with
  | [y, m, d] =>
    if y.data.length = 4 ∧ m.data.length = 2 ∧ d.data.length = 2 ∧
        isDigits y ∧ isDigits m ∧ isDigits d then
      daysFromEpochDate (digitsToNat y) (digitsToNat m) (digitsToNat d)
    else none
  | _ => none

/-- Parse a timezone offset body `HH:MM` into seconds. -/
def parseOffset (s : String) : Option Nat :=
  match splitChar s ':' with
  | [h, m] =>
    if h.data.length = 2 ∧ m.data.length = 2 ∧ isDigits h ∧ isDigits m then
      if digitsToNat h ≤ 23 ∧ digitsToNat m ≤ 59 then
        some (digitsToNat h * 3600 + digitsToNat m * 60)
      else none
    else none
  | _ => none

/-- Split a time-of-day string into the clock part and the offset (seconds),
handling `Z`, `+HH:MM` and `-HH:MM` suffixes; no suffix means offset `0`
(zoneless strings are modelled as UTC). -/
def splitOffset (t : String) : Option (String × Int) :=
  if endsWithChar t 'Z' then some (dropLastChar t, 0)
  else
    match splitChar t '+' with
    | [t0, off] => (parseOffset off).map (fun o => (t0, (o : Int)))
    | [t1] =>
      match splitChar t1 '-' with
      | [t0, off] => (parseOffset off).map (fun o => (t0, -(o : Int)))
      | [_] => some (t1, 0)
      | _ => none
    | _ => none

/-- Parse a clock string `HH:MM`, `HH:MM:SS` or `HH:MM:SS.fff` into seconds
since midnight (fractional seconds validated, then truncated). -/
def parseTimePart (t : String) : Option Nat :=
  match splitChar t ':' with
  | [h, m] =>
    if h.data.length = 2 ∧ m.data.length = 2 ∧ isDigits h ∧ isDigits m ∧
        digitsToNat h ≤ 23 ∧ digitsToNat m ≤ 59 then
      some (digitsToNat h * 3600 + digitsToNat m * 60)
    else none
  | [h, m, s] =>
    if h.data.length = 2 ∧ m.data.length = 2 ∧ isDigits h ∧ isDigits m ∧
        digitsToNat h ≤ 23 ∧ digitsToNat m ≤ 59 then
      match splitChar s '.' with
      | [si] =>
        if si.data.length = 2 ∧ isDigits si ∧ digitsToNat si ≤ 59 then
          some (digitsToNat h * 3600 + digitsToNat m * 60 + digitsToNat si)
        else none
      | [si, fi] =>
        if si.data.length = 2 ∧ isDigits si ∧ isDigits fi ∧ digitsToNat si ≤ 59 then
          some (digitsToNat h * 3600 + digitsToNat m * 60 + digitsToNat si)
        else none
      | _ => none
    else none
  | _ => none

/-- Model of `new Date(s).getTime() / 1000` for a string `s`: epoch seconds,
or `none` when JavaScript would produce an invalid date (see the module
comment for the modelled format). -/
def jsDateParse (s : String) : Option Int :=
  let parts := if containsChar s 'T' then splitChar s 'T' else splitChar s ' '
  match parts with
  | [d] => (parseDatePart d).map (fun n => ((n * 86400 : Nat) : Int))
  | [d, tfull] =>
    match parseDatePart d, splitOffset tfull with
    | some days, some (t, off) =>
      (parseTimePart t).map (fun secs => ((days * 86400 + secs : Nat) : Int) - off)
    | _, _ => none
  | _ => none

/-- One of the source's "PostgreSQL timestamp format" regular expressions
matches: `YYYY-MM-DD HH:MM:SS(.d+)?` or the `T`-separated equivalent,
anchored (so no timezone suffix). -/
def matchesSqlFormat (s : String) : Bool :=
  let parts := if containsChar s 'T' then splitChar s 'T' else splitChar s ' '
  match parts with
  | [d, t] =>
    (match splitChar d '-' with
     | [y, m, dd] =>
       decide (y.data.length = 4) && decide (m.data.length = 2) && decide (dd.data.length = 2) &&
       isDigits y && isDigits m && isDigits dd
     | _ => false)
    &&
    (match splitChar t ':' with
     | [h, mi, sec] =>
       decide (h.data.length = 2) && decide (mi.data.length = 2) && isDigits h && isDigits mi &&
       (match splitChar sec '.' with
        | [si] => decide (si.data.length = 2) && isDigits si
        | [si, fi] => decide (si.data.length = 2) && isDigits si && isDigits fi
        | _ => false)
     | _ => false)
  | _ => false

/-- Embedding of `convertToUnixTimestamp`: convert a heterogeneous timestamp
value to epoch seconds, or `null` (with a logged warning, which the
embedding drops) when unparseable.  The `Date` branch (`getTime() / 1000`)
uses truncating division: `Date` payloads that are not whole seconds are
out of scope. -/
def convertToUnixTimestamp : TimeVal → Option Int
  | .null => none
  | .num n => some n
  | .date ms => some (ms / 1000)
  | .str s =>
    let timestampClean := jsTrim s
    let cleanTimestamp :=
      if endsWithChar timestampClean 'Z' then dropLastChar timestampClean ++ "+00:00"
      else timestampClean
    match jsDateParse cleanTimestamp with
    | some v => some v
    | none =>
      if matchesSqlFormat timestampClean then
        jsDateParse (jsTrim ((splitChar (((splitChar timestampClean '+').headD "")) 'Z').headD ""))
      else none

/-! ## `validJourneyTime` -/

/-- Embedding of `validJourneyTime`: the minimum-dwell validity rule.
`!fromTime || !toTime` rejects `null` and `0`; the minimum is 14400 seconds,
plus `extraHours * 3600` for same-facility journeys when `extraHours` is
truthy. -/
def validJourneyTime (fromTime toTime : Option Int) (isSame : Bool) (extraHours : Option Int) :
    Bool :=
  if !jsTruthyI fromTime || !jsTruthyI toTime then false
  else
    let minLimit : Int :=
      if isSame && jsTruthyI extraHours then 14400 + (extraHours.getD 0) * 3600 else 14400
    let timeDiff : Int := toTime.getD 0 - fromTime.getD 0
    decide (timeDiff ≥ minLimit)

example : validJourneyTime (some 1000) (some 15400) false none = true := by decide
example : validJourneyTime (some 1000) (some 15399) false none = false := by decide
example : validJourneyTime (some 0) (some 20000) false none = false := by decide
example : validJourneyTime (some 1000) (some 19000) true (some 2) = false := by decide
example : convertToUnixTimestamp (.str "not-a-date") = none := by decide
example : convertToUnixTimestamp (.str "2020-01-02 00:00:00") = some 1577923200 := by decide
example : convertToUnixTimestamp (.str "2020-01-02T00:00:30.250Z") = some 1577923230 := by
  decide

/-! ## Data model -/

/-- Embedding of the `GeofencingRow` input interface.  `device_id` and
`facility_id` are strings (the source defends with `String(x || '')`, the
identity on strings, with `""` playing the role of a missing identifier);
the optional `facility_type`/`facility_name` are `Option String`; the two
event times are heterogeneous timestamp values. -/
structure GeofencingRow where
  device_id : String
  facility_id : String
  facility_type : Option String
  facility_name : Option String
  entry_event_time : TimeVal
  exit_event_time : TimeVal
deriving DecidableEq

/-- A visit as accumulated by `calculateJourneyCounts`. -/
structure Visit where
  facility_id : String
  facility_type : String
  entry_time : Int
  exit_time : Option Int
deriving DecidableEq

/-- A visit as accumulated by `calculateJourneyList` (no type). -/
structure ListVisit where
  facility_id : String
  entry_time : Int
  exit_time : Option Int
deriving DecidableEq

/-- Forget the `facility_type` component of a counts-side visit. -/
def Visit.toListVisit (v : Visit) : ListVisit :=
  ⟨v.facility_id, v.entry_time, v.exit_time⟩

/-- One value of the `journey_details` record. -/
structure JourneyDetail where
  count : Nat
  from_facility : String
  to_facility : String
  from_type : String
  to_type : String
deriving DecidableEq

/-- The `metadata` of a `JourneyCountResult`. -/
structure CountMetadata where
  total_rows_processed : Nat
  devices_processed : Nat
  facility_types_found : List String
  unique_facilities_found : Nat
  facility_type_map : List (String × String)
deriving DecidableEq

/-- Result shape of `calculateJourneyCounts`. -/
structure JourneyCountResult where
  counts : List (String × Nat)
  journey_details : List (String × JourneyDetail)
  total : Nat
  metadata : CountMetadata
deriving DecidableEq

/-- One itemized journey record of `calculateJourneyList`.  `exit_time` is
the departure time, i.e. the prior visit's exit. -/
structure JourneyRecord where
  from_facility : String
  to_facility : String
  device_id : String
  journey_time : Option Int
  entry_time : Int
  exit_time : Option Int
deriving DecidableEq

/-- One value of the `facilities_details` record. -/
structure FacilityDetails where
  facility_id : String
  facility_type : Option String
  facility_name : Option String
deriving DecidableEq

/-- Result shape of `calculateJourneyList`. -/
structure JourneyListResult where
  facilities_details : List (String × FacilityDetails)
  journies : List JourneyRecord
deriving DecidableEq

/-! ## Trajectory builder (grouping and sorting) -/

/-- The sort key of the source's comparator:
`convertToUnixTimestamp(row.entry_event_time) || 0`. -/
def entrySortKey (r : GeofencingRow) : Int :=
  (convertToUnixTimestamp r.entry_event_time).getD 0

/-- Insert a row into an (ascending) list after all rows of key `≤` its key:
one step of a stable ascending sort. -/
def insertSorted (r : GeofencingRow) : List GeofencingRow → List GeofencingRow
  | [] => [r]
  | x :: xs => if entrySortKey x ≤ entrySortKey r then x :: insertSorted r xs else r :: x :: xs

/-- The source's in-place `sort((a, b) => timeA - timeB)` (stable in
JavaScript), modelled as a stable insertion sort on `entrySortKey`. -/
def sortMovements (l : List GeofencingRow) : List GeofencingRow :=
  l.foldl (fun acc r => insertSorted r acc) []

/-- Step 1 of `calculateJourneyCounts`: group rows by `device_id`, skipping
rows whose `device_id` is empty. -/
def groupByDevice (rows : List GeofencingRow) : List (String × List GeofencingRow) :=
  rows.foldl
    (fun m row =>
      if row.device_id = "" then m
      else upsertWith m row.device_id (fun l => (l.getD []) ++ [row]))
    []

/-- Step 1 of `calculateJourneyList`: the same grouping loop, which also
collects first-seen facility details (only for rows with a nonempty
`device_id`, since the `continue` fires first). -/
def groupAndCollect (rows : List GeofencingRow) :
    List (String × List GeofencingRow) × List (String × FacilityDetails) :=
  rows.foldl
    (fun st row =>
      if row.device_id = "" then st
      else
        let dm := upsertWith st.1 row.device_id (fun l => (l.getD []) ++ [row])
        let fd :=
          if row.facility_id ≠ "" ∧ (lookupA st.2 row.facility_id).isNone then
            st.2 ++ [(row.facility_id, ⟨row.facility_id, row.facility_type, row.facility_name⟩)]
          else st.2
        (dm, fd))
    ([], [])

/-! ## `calculateJourneyCounts` -/

/-- `if (!journeyCounts[key]) journeyCounts[key] = 0; journeyCounts[key]++`. -/
def incrementKey (m : List (String × Nat)) (k : String) : List (String × Nat) :=
  upsertWith m k (fun o => (o.getD 0) + 1)

/-- Accumulator threaded across devices by `calculateJourneyCounts`:
the journey counters and the two metadata sets. -/
structure CountsAcc where
  journeyCounts : List (String × Nat)
  facility_types_found : List String
  facilities_found : List String
deriving DecidableEq

/-- Per-device working state of `calculateJourneyCounts`: the visit
accumulator, the `facilityLastIndex` map and the cross-device accumulator. -/
structure CountsDevState where
  visits : List Visit
  facilityLastIndex : List (String × Nat)
  acc : CountsAcc
deriving DecidableEq

/-- The body of the inner `for (const prevFacilityId in facilityLastIndex)`
loop of `calculateJourneyCounts`: evaluate the candidate edge from one map
entry `e = (prevFacilityId, lastIdx)` against the current visit and
increment the corresponding counter when it passes the validity rule. -/
def countsEmitOne (extra : Option Int) (visits : List Visit) (facilityId : String)
    (entryTime : Int) (jc : List (String × Nat)) (e : String × Nat) :
    List (String × Nat) :=
  let prevFacilityId := e.1
  let lastIdx := e.2
  if lastIdx < visits.length then
    match visits[lastIdx]? with
    | none => jc
    | some targetVisit =>
      let fromTime := targetVisit.exit_time
      let toTime := entryTime
      let isSameFacility := facilityId = prevFacilityId
      if jsTruthyI fromTime && jsTruthyI (some toTime) &&
          validJourneyTime fromTime (some toTime) isSameFacility extra then
        incrementKey jc (prevFacilityId ++ "||" ++ facilityId)
      else jc
  else jc

/-- One iteration of the movement loop of `calculateJourneyCounts`:
validate the row, record metadata, append the visit, emit a counter
increment for every entry of `facilityLastIndex` whose candidate edge
passes the validity rule, then point `facilityLastIndex` at this visit. -/
def countsStep (extra : Option Int) (st : CountsDevState) (movement : GeofencingRow) :
    CountsDevState :=
  let facilityId := movement.facility_id
  match convertToUnixTimestamp movement.entry_event_time with
  | none => st
  | some entryTime =>
    if facilityId = "" then st
    else
      let exitTime := convertToUnixTimestamp movement.exit_event_time
      let facilityType := jsTrim (movement.facility_type.getD "")
      let types :=
        if facilityType ≠ "" then addUnique st.acc.facility_types_found facilityType
        else st.acc.facility_types_found
      let facs := addUnique st.acc.facilities_found facilityId
      let currentIndex := st.visits.length
      let visits := st.visits ++ [⟨facilityId, facilityType, entryTime, exitTime⟩]
      let journeyCounts :=
        if currentIndex > 0 then
          st.facilityLastIndex.foldl (countsEmitOne extra visits facilityId entryTime)
            st.acc.journeyCounts
        else st.acc.journeyCounts
      ⟨visits, upsertA st.facilityLastIndex facilityId currentIndex,
       ⟨journeyCounts, types, facs⟩⟩

/-- The movement loop of `calculateJourneyCounts` for one device: fresh
`visits` and `facilityLastIndex`, threaded cross-device accumulator. -/
def countsProcessDevice (extra : Option Int) (acc : CountsAcc)
    (movements : List GeofencingRow) : CountsAcc :=
  (movements.foldl (countsStep extra) ⟨[], [], acc⟩).acc

/-- Steps 2–3 of `calculateJourneyCounts`: sort each device's movements and
run the movement loop device by device (`journeyCounts` and the metadata
sets survive across devices). -/
def countsDevicesFold (extra : Option Int) (rows : List GeofencingRow) : CountsAcc :=
  ((groupByDevice rows).map (fun p => (p.1, sortMovements p.2))).foldl
    (fun acc p => countsProcessDevice extra acc p.2) ⟨[], [], []⟩

/-- The `facilityTypeMap` pass of `calculateJourneyCounts`: first-seen
(trimmed, nonempty) `facility_type` per nonempty `facility_id`, over all
raw rows. -/
def buildFacilityTypeMap (rows : List GeofencingRow) : List (String × String) :=
  rows.foldl
    (fun m row =>
      let fid := row.facility_id
      let ftype := jsTrim (row.facility_type.getD "")
      if fid ≠ "" ∧ ftype ≠ "" ∧ (lookupA m fid).isNone then upsertA m fid ftype else m)
    []

/-- The `journeyDetails` pass of `calculateJourneyCounts`: split each
journey key on `"||"` and annotate it with facility types. -/
def buildJourneyDetails (facilityTypeMap : List (String × String))
    (journeyCounts : List (String × Nat)) : List (String × JourneyDetail) :=
  journeyCounts.foldl
    (fun jd p =>
      match splitPipes p.1 with
      | [fromFacility, toFacility] =>
        upsertA jd p.1
          ⟨p.2, fromFacility, toFacility,
           (lookupA facilityTypeMap fromFacility).getD "",
           (lookupA facilityTypeMap toFacility).getD ""⟩
      | _ => jd)
    []

/-- Embedding of `calculateJourneyCounts`. -/
def calculateJourneyCounts (geofencingRows : List GeofencingRow)
    (extraJourneyTimeLimit : Option Int) : JourneyCountResult :=
  if geofencingRows.isEmpty then ⟨[], [], 0, ⟨0, 0, [], 0, []⟩⟩
  else
    let finalAcc := countsDevicesFold extraJourneyTimeLimit geofencingRows
    let journeyCounts := finalAcc.journeyCounts
    let total := sumValues journeyCounts
    let facilityTypeMap := buildFacilityTypeMap geofencingRows
    let journeyDetails := buildJourneyDetails facilityTypeMap journeyCounts
    ⟨journeyCounts, journeyDetails, total,
     ⟨geofencingRows.length, (groupByDevice geofencingRows).length,
      sortStrings finalAcc.facility_types_found, finalAcc.facilities_found.length,
      facilityTypeMap⟩⟩

/-! ## `calculateJourneyList` -/

/-- Per-device working state of `calculateJourneyList`: the visit
accumulator, the `facilityLastIndex` map and the cross-device `journies`. -/
structure ListDevState where
  visits : List ListVisit
  facilityLastIndex : List (String × Nat)
  journies : List JourneyRecord
deriving DecidableEq

/-- The body of the inner `for (const prevFacilityId in facilityLastIndex)`
loop of `calculateJourneyList`: evaluate the candidate edge from one map
entry `e = (prevFacilityId, lastIdx)` against the current visit — skipping
it when the from-facility filter is active and does not match — and push a
journey record when it passes the validity rule. -/
def listEmitOne (extra : Option Int) (fromFacilityStr : Option String) (deviceId : String)
    (visits : List ListVisit) (facilityId : String) (entryTime : Int)
    (js : List JourneyRecord) (e : String × Nat) : List JourneyRecord :=
  let prevFacilityId := e.1
  let lastIdx := e.2
  if lastIdx < visits.length then
    match visits[lastIdx]? with
    | none => js
    | some targetVisit =>
      if jsTruthyStr fromFacilityStr ∧ prevFacilityId ≠ fromFacilityStr.getD "" then
        js
      else
        let fromTime := targetVisit.exit_time
        let toTime := entryTime
        let isSameFacility := facilityId = prevFacilityId
        if jsTruthyI fromTime && jsTruthyI (some toTime) &&
            validJourneyTime fromTime (some toTime) isSameFacility extra then
          js ++ [⟨prevFacilityId, facilityId, deviceId,
                 if jsTruthyI fromTime then some (toTime - fromTime.getD 0) else none,
                 entryTime, fromTime⟩]
        else js
  else js

/-- One iteration of the movement loop of `calculateJourneyList`: validate
the row, append the visit, push a journey record for every entry of
`facilityLastIndex` that passes the from-facility filter (when active) and
the validity rule, then point `facilityLastIndex` at this visit. -/
def listStep (extra : Option Int) (fromFacilityStr : Option String) (deviceId : String)
    (st : ListDevState) (movement : GeofencingRow) : ListDevState :=
  let facilityId := movement.facility_id
  match convertToUnixTimestamp movement.entry_event_time with
  | none => st
  | some entryTime =>
    if facilityId = "" then st
    else
      let exitTime := convertToUnixTimestamp movement.exit_event_time
      let currentIndex := st.visits.length
      let visits := st.visits ++ [⟨facilityId, entryTime, exitTime⟩]
      let journies :=
        if currentIndex > 0 then
          st.facilityLastIndex.foldl
            (listEmitOne extra fromFacilityStr deviceId visits facilityId entryTime)
            st.journies
        else st.journies
      ⟨visits, upsertA st.facilityLastIndex facilityId currentIndex, journies⟩

/-- The movement loop of `calculateJourneyList` for one device. -/
def listProcessDevice (extra : Option Int) (fromFacilityStr : Option String)
    (deviceId : String) (journies : List JourneyRecord)
    (movements : List GeofencingRow) : List JourneyRecord :=
  (movements.foldl (listStep extra fromFacilityStr deviceId) ⟨[], [], journies⟩).journies

/-- `const fromFacilityStr = fromFacility ? String(fromFacility).trim() : null`:
a falsy (`null` or `""`) filter becomes `null`, otherwise it is trimmed. -/
def normalizeFromFacility : Option String → Option String
  | none => none
  | some s => if s = "" then none else some (jsTrim s)

/-- Step 2–3 of `calculateJourneyList`: sort each device's movements and run
the movement loop device by device, `journies` surviving across devices. -/
def listDevicesFold (extra : Option Int) (fromFacilityStr : Option String)
    (rows : List GeofencingRow) : List JourneyRecord :=
  (((groupAndCollect rows).1).map (fun p => (p.1, sortMovements p.2))).foldl
    (fun js p => listProcessDevice extra fromFacilityStr p.1 js p.2) []

/-- The defensive post-generation filter of `calculateJourneyList`
(`if (fromFacilityStr) { filteredJournies = journies.filter(...) }`). -/
def postFilterJournies (fromFacilityStr : Option String) (journies : List JourneyRecord) :
    List JourneyRecord :=
  if jsTruthyStr fromFacilityStr then
    journies.filter (fun j => jsTrim j.from_facility == fromFacilityStr.getD "")
  else journies

/-- Embedding of `calculateJourneyList`. -/
def calculateJourneyList (geofencingRows : List GeofencingRow)
    (extraJourneyTimeLimit : Option Int) (fromFacility : Option String) : JourneyListResult :=
  if geofencingRows.isEmpty then ⟨[], []⟩
  else
    let fromFacilityStr := normalizeFromFacility fromFacility
    let journies := listDevicesFold extraJourneyTimeLimit fromFacilityStr geofencingRows
    ⟨(groupAndCollect geofencingRows).2, postFilterJournies fromFacilityStr journies⟩

/-! ## Basic lemmas about the emission loops -/

/-- Whether the map entry `e` produces an emission in the counts loop. -/
def emitsFromC (extra : Option Int) (visits : List Visit) (facilityId : String)
    (entryTime : Int) (e : String × Nat) : Bool :=
  decide (e.2 < visits.length) &&
    (match visits[e.2]? with
     | none => false
     | some tv =>
       jsTruthyI tv.exit_time && jsTruthyI (some entryTime) &&
         validJourneyTime tv.exit_time (some entryTime) (decide (facilityId = e.1)) extra)

/-- Whether the map entry `e` produces an emission in the list loop
(no from-facility filter). -/
def emitsFromL (extra : Option Int) (visits : List ListVisit) (facilityId : String)
    (entryTime : Int) (e : String × Nat) : Bool :=
  decide (e.2 < visits.length) &&
    (match visits[e.2]? with
     | none => false
     | some tv =>
       jsTruthyI tv.exit_time && jsTruthyI (some entryTime) &&
         validJourneyTime tv.exit_time (some entryTime) (decide (facilityId = e.1)) extra)

theorem countsEmitOne_eq (extra : Option Int) (v : List Visit) (fid : String) (et : Int)
    (jc : List (String × Nat)) (e : String × Nat) :
    countsEmitOne extra v fid et jc e =
      if emitsFromC extra v fid et e then incrementKey jc (e.1 ++ "||" ++ fid) else jc := by
  unfold countsEmitOne emitsFromC
  rcases h : v[e.2]? with _ | tv <;> by_cases hl : e.2 < v.length <;> simp [h, hl]

theorem listEmitOne_none_eq (extra : Option Int) (d : String) (v : List ListVisit)
    (fid : String) (et : Int) (js : List JourneyRecord) (e : String × Nat) :
    listEmitOne extra none d v fid et js e =
      if emitsFromL extra v fid et e then
        js ++ [⟨e.1, fid, d,
               if jsTruthyI (v[e.2]?.map ListVisit.exit_time |>.join) then
                 some (et - ((v[e.2]?.map ListVisit.exit_time |>.join).getD 0))
               else none,
               et, (v[e.2]?.map ListVisit.exit_time |>.join)⟩]
      else js := by
  unfold listEmitOne emitsFromL
  rcases h : v[e.2]? with _ | tv <;> by_cases hl : e.2 < v.length <;>
    simp [h, hl, jsTruthyStr]

theorem listEmitOne_append (extra : Option Int) (ff : Option String) (d : String)
    (v : List ListVisit) (fid : String) (et : Int) (js : List JourneyRecord)
    (e : String × Nat) :
    listEmitOne extra ff d v fid et js e =
      js ++ listEmitOne extra ff d v fid et [] e := by
  by_cases hl : e.2 < v.length
  · rcases h : v[e.2]? with _ | tv
    · simp [listEmitOne, h, hl]
    · simp only [listEmitOne, h, hl, if_true]
      split
      · simp
      · split <;> simp
  · simp [listEmitOne, hl]

theorem foldl_listEmitOne_append (extra : Option Int) (ff : Option String) (d : String)
    (v : List ListVisit) (fid : String) (et : Int) :
    ∀ (fli : List (String × Nat)) (js : List JourneyRecord),
      fli.foldl (listEmitOne extra ff d v fid et) js =
        js ++ fli.foldl (listEmitOne extra ff d v fid et) [] := by
  intro fli
  induction fli with
  | nil => intro js; simp
  | cons e fli ih =>
    intro js
    simp only [List.foldl_cons]
    rw [ih (listEmitOne extra ff d v fid et js e), listEmitOne_append,
        ih (listEmitOne extra ff d v fid et [] e), listEmitOne_append extra ff d v fid et []]
    simp

theorem sumValues_incrementKey (m : List (String × Nat)) (k : String) :
    sumValues (incrementKey m k) = sumValues m + 1 := by
  induction m with
  | nil => simp [incrementKey, upsertWith, sumValues]
  | cons p m ih =>
    obtain ⟨k', v⟩ := p
    by_cases h : k' = k <;>
      simp [incrementKey, upsertWith, h, sumValues] at ih ⊢ <;> omega

theorem counts_fold_countP (extra : Option Int) (v : List Visit) (fid : String) (et : Int) :
    ∀ (fli : List (String × Nat)) (jc : List (String × Nat)),
      sumValues (fli.foldl (countsEmitOne extra v fid et) jc) =
        sumValues jc + fli.countP (emitsFromC extra v fid et) := by
  intro fli
  induction fli with
  | nil => intro jc; simp
  | cons e fli ih =>
    intro jc
    simp only [List.foldl_cons, List.countP_cons]
    rw [ih, countsEmitOne_eq]
    by_cases h : emitsFromC extra v fid et e <;> simp [h, sumValues_incrementKey] <;> omega

theorem list_fold_countP (extra : Option Int) (d : String) (v : List ListVisit)
    (fid : String) (et : Int) :
    ∀ (fli : List (String × Nat)) (js : List JourneyRecord),
      (fli.foldl (listEmitOne extra none d v fid et) js).length =
        js.length + fli.countP (emitsFromL extra v fid et) := by
  intro fli
  induction fli with
  | nil => intro js; simp
  | cons e fli ih =>
    intro js
    simp only [List.foldl_cons, List.countP_cons]
    rw [ih, listEmitOne_none_eq]
    by_cases h : emitsFromL extra v fid et e <;> simp [h] <;> omega

theorem emitsFrom_map (extra : Option Int) (vc : List Visit) (fid : String) (et : Int)
    (e : String × Nat) :
    emitsFromL extra (vc.map Visit.toListVisit) fid et e = emitsFromC extra vc fid et e := by
  unfold emitsFromL emitsFromC
  rcases h : vc[e.2]? with _ | tv <;>
    simp [List.getElem?_map, h, Visit.toListVisit]

theorem lookupA_upsertA {α : Type} (m : List (String × α)) (k : String) (v : α)
    (q : String) :
    lookupA (upsertA m k v) q = if q = k then some v else lookupA m q := by
  induction m with
  | nil =>
    by_cases h : q = k
    · subst h; simp [upsertA, upsertWith, lookupA]
    · have h' : ¬(k = q) := fun hh => h hh.symm
      simp [upsertA, upsertWith, lookupA, h, h']
  | cons p m ih =>
    obtain ⟨k', w⟩ := p
    by_cases h1 : k' = k
    · subst h1
      by_cases h2 : q = k'
      · subst h2; simp [upsertA, upsertWith, lookupA]
      · have h2' : ¬(k' = q) := fun hh => h2 hh.symm
        simp [upsertA, upsertWith, lookupA, h2, h2']
    · by_cases h2 : k' = q
      · subst h2
        have hq : ¬(k' = k) := h1
        simp [upsertA, upsertWith, lookupA, h1]
      · simp only [upsertA, upsertWith, lookupA, if_neg h1, if_neg h2]
        simpa [upsertA] using ih

/-! ## Skip and step-characterization lemmas -/

/-- A movement survives the two per-row validation skips of the movement
loops: its entry time normalizes and its facility id is nonempty. -/
def validMovement (r : GeofencingRow) : Bool :=
  (convertToUnixTimestamp r.entry_event_time).isSome && decide (r.facility_id ≠ "")

theorem countsStep_entry_none (extra : Option Int) (st : CountsDevState)
    (mv : GeofencingRow) (hc : convertToUnixTimestamp mv.entry_event_time = none) :
    countsStep extra st mv = st := by
  unfold countsStep; rw [hc]

theorem listStep_entry_none (extra : Option Int) (ff : Option String) (d : String)
    (st : ListDevState) (mv : GeofencingRow)
    (hc : convertToUnixTimestamp mv.entry_event_time = none) :
    listStep extra ff d st mv = st := by
  unfold listStep; rw [hc]

theorem countsStep_fid_empty (extra : Option Int) (st : CountsDevState)
    (mv : GeofencingRow) (hf : mv.facility_id = "") :
    countsStep extra st mv = st := by
  unfold countsStep
  rcases hc : convertToUnixTimestamp mv.entry_event_time with _ | et <;> simp [hf]

theorem listStep_fid_empty (extra : Option Int) (ff : Option String) (d : String)
    (st : ListDevState) (mv : GeofencingRow) (hf : mv.facility_id = "") :
    listStep extra ff d st mv = st := by
  unfold listStep
  rcases hc : convertToUnixTimestamp mv.entry_event_time with _ | et <;> simp [hf]

theorem countsStep_skip (extra : Option Int) (st : CountsDevState) (mv : GeofencingRow)
    (h : validMovement mv = false) : countsStep extra st mv = st := by
  unfold validMovement at h
  rcases hc : convertToUnixTimestamp mv.entry_event_time with _ | et
  · exact countsStep_entry_none extra st mv hc
  · rw [hc] at h
    simp at h
    exact countsStep_fid_empty extra st mv h

theorem listStep_skip (extra : Option Int) (ff : Option String) (d : String)
    (st : ListDevState) (mv : GeofencingRow) (h : validMovement mv = false) :
    listStep extra ff d st mv = st := by
  unfold validMovement at h
  rcases hc : convertToUnixTimestamp mv.entry_event_time with _ | et
  · exact listStep_entry_none extra ff d st mv hc
  · rw [hc] at h
    simp at h
    exact listStep_fid_empty extra ff d st mv h

theorem countsStep_valid (extra : Option Int) (st : CountsDevState) (mv : GeofencingRow)
    (et : Int) (hc : convertToUnixTimestamp mv.entry_event_time = some et)
    (hf : mv.facility_id ≠ "") :
    countsStep extra st mv =
      ⟨st.visits ++ [⟨mv.facility_id, jsTrim (mv.facility_type.getD ""), et,
                     convertToUnixTimestamp mv.exit_event_time⟩],
       upsertA st.facilityLastIndex mv.facility_id st.visits.length,
       ⟨(if st.visits.length > 0 then
           st.facilityLastIndex.foldl
             (countsEmitOne extra
               (st.visits ++ [⟨mv.facility_id, jsTrim (mv.facility_type.getD ""), et,
                              convertToUnixTimestamp mv.exit_event_time⟩])
               mv.facility_id et)
             st.acc.journeyCounts
         else st.acc.journeyCounts),
        (if jsTrim (mv.facility_type.getD "") ≠ "" then
           addUnique st.acc.facility_types_found (jsTrim (mv.facility_type.getD ""))
         else st.acc.facility_types_found),
        addUnique st.acc.facilities_found mv.facility_id⟩⟩ := by
  unfold countsStep
  rw [hc]
  simp [hf]

theorem listStep_valid (extra : Option Int) (ff : Option String) (d : String)
    (st : ListDevState) (mv : GeofencingRow) (et : Int)
    (hc : convertToUnixTimestamp mv.entry_event_time = some et)
    (hf : mv.facility_id ≠ "") :
    listStep extra ff d st mv =
      ⟨st.visits ++ [⟨mv.facility_id, et, convertToUnixTimestamp mv.exit_event_time⟩],
       upsertA st.facilityLastIndex mv.facility_id st.visits.length,
       (if st.visits.length > 0 then
          st.facilityLastIndex.foldl
            (listEmitOne extra ff d
              (st.visits ++ [⟨mv.facility_id, et, convertToUnixTimestamp mv.exit_event_time⟩])
              mv.facility_id et)
            st.journies
        else st.journies)⟩ := by
  unfold listStep
  rw [hc]
  simp [hf]

/-! ## Sorting lemmas -/

theorem sortMovements_append_single (l : List GeofencingRow) (r : GeofencingRow) :
    sortMovements (l ++ [r]) = insertSorted r (sortMovements l) := by
  simp [sortMovements, List.foldl_append]

theorem mem_insertSorted (r x : GeofencingRow) :
    ∀ (l : List GeofencingRow), x ∈ insertSorted r l ↔ x = r ∨ x ∈ l := by
  intro l
  induction l with
  | nil => simp [insertSorted]
  | cons y l ih =>
    unfold insertSorted
    split
    · simp only [List.mem_cons, ih]
      tauto
    · simp only [List.mem_cons]

theorem mem_sortMovements_aux (x : GeofencingRow) :
    ∀ (l : List GeofencingRow) (acc : List GeofencingRow),
      x ∈ l.foldl (fun a r => insertSorted r a) acc ↔ x ∈ l ∨ x ∈ acc := by
  intro l
  induction l with
  | nil => simp
  | cons r l ih =>
    intro acc
    simp only [List.foldl_cons]
    rw [ih]
    rw [mem_insertSorted]
    simp
    tauto

theorem mem_sortMovements (l : List GeofencingRow) (x : GeofencingRow) :
    x ∈ sortMovements l ↔ x ∈ l := by
  simpa [sortMovements] using mem_sortMovements_aux x l []

theorem filter_insertSorted_neg (P : GeofencingRow → Bool) (r : GeofencingRow)
    (h : P r = false) :
    ∀ (l : List GeofencingRow), (insertSorted r l).filter P = l.filter P := by
  intro l
  induction l with
  | nil => simp [insertSorted, h]
  | cons y l ih =>
    unfold insertSorted
    split
    · simp [List.filter_cons, ih]
    · simp [List.filter_cons, h]

/-- A fold whose function ignores elements failing `P` only sees the
filtered list. -/
theorem foldl_congr_filter {α β : Type} (f : β → α → β) (P : α → Bool)
    (hf : ∀ st x, P x = false → f st x = st) :
    ∀ (l : List α) (st : β), l.foldl f st = (l.filter P).foldl f st := by
  intro l
  induction l with
  | nil => simp
  | cons x l ih =>
    intro st
    rcases h : P x with _ | _
    · simp only [List.foldl_cons, List.filter_cons, h, hf st x h]
      exact ih st
    · simp only [List.foldl_cons, List.filter_cons, h]
      exact ih (f st x)

/-! ## Counts/list simulation (towards P5) -/

/-- Simulation relation between the per-device states of the two movement
loops (no from-facility filter): same visits up to the forgotten type, same
`facilityLastIndex`, and counter total exceeding the record count by `k`. -/
def StepRel (k : Nat) (cs : CountsDevState) (ls : ListDevState) : Prop :=
  ls.visits = cs.visits.map Visit.toListVisit ∧
  ls.facilityLastIndex = cs.facilityLastIndex ∧
  sumValues cs.acc.journeyCounts = k + ls.journies.length

theorem stepRel_preserved (extra : Option Int) (d : String) (k : Nat) (mv : GeofencingRow)
    (cs : CountsDevState) (ls : ListDevState) (h : StepRel k cs ls) :
    StepRel k (countsStep extra cs mv) (listStep extra none d ls mv) := by
  obtain ⟨h1, h2, h3⟩ := h
  rcases hc : convertToUnixTimestamp mv.entry_event_time with _ | et
  · rw [countsStep_entry_none extra cs mv hc, listStep_entry_none extra none d ls mv hc]
    exact ⟨h1, h2, h3⟩
  · by_cases hf : mv.facility_id = ""
    · rw [countsStep_fid_empty extra cs mv hf, listStep_fid_empty extra none d ls mv hf]
      exact ⟨h1, h2, h3⟩
    · rw [countsStep_valid extra cs mv et hc hf, listStep_valid extra none d ls mv et hc hf]
      have hlen : ls.visits.length = cs.visits.length := by rw [h1]; simp
      have hmap : ls.visits ++
          [(⟨mv.facility_id, et, convertToUnixTimestamp mv.exit_event_time⟩ : ListVisit)] =
          (cs.visits ++
            [(⟨mv.facility_id, jsTrim (mv.facility_type.getD ""), et,
              convertToUnixTimestamp mv.exit_event_time⟩ : Visit)]).map Visit.toListVisit := by
        simp [h1, Visit.toListVisit]
      refine ⟨?_, ?_, ?_⟩
      · exact hmap
      · rw [h2, hlen]
      · by_cases hpos : 0 < cs.visits.length
        · have hpos' : 0 < ls.visits.length := by omega
          rw [if_pos hpos, if_pos hpos', counts_fold_countP, h2, list_fold_countP, hmap]
          have hcnt :
              cs.facilityLastIndex.countP
                (emitsFromL extra
                  ((cs.visits ++
                    [(⟨mv.facility_id, jsTrim (mv.facility_type.getD ""), et,
                      convertToUnixTimestamp mv.exit_event_time⟩ : Visit)]).map
                    Visit.toListVisit)
                  mv.facility_id et) =
              cs.facilityLastIndex.countP
                (emitsFromC extra
                  (cs.visits ++
                    [(⟨mv.facility_id, jsTrim (mv.facility_type.getD ""), et,
                      convertToUnixTimestamp mv.exit_event_time⟩ : Visit)])
                  mv.facility_id et) :=
            List.countP_congr (fun e _ => by
              rw [emitsFrom_map extra
                (cs.visits ++
                  [(⟨mv.facility_id, jsTrim (mv.facility_type.getD ""), et,
                    convertToUnixTimestamp mv.exit_event_time⟩ : Visit)])
                mv.facility_id et e])
          rw [hcnt, h3]
          omega
        · have hpos' : ¬ 0 < ls.visits.length := by omega
          rw [if_neg hpos, if_neg hpos']
          exact h3

theorem foldRel_preserved (extra : Option Int) (d : String) (k : Nat) :
    ∀ (movements : List GeofencingRow) (cs : CountsDevState) (ls : ListDevState),
      StepRel k cs ls →
      StepRel k (movements.foldl (countsStep extra) cs)
        (movements.foldl (listStep extra none d) ls) := by
  intro movements
  induction movements with
  | nil => intro cs ls h; exact h
  | cons mv movements ih =>
    intro cs ls h
    exact ih _ _ (stepRel_preserved extra d k mv cs ls h)

theorem processDevice_rel (extra : Option Int) (d : String) (k : Nat) (acc : CountsAcc)
    (js : List JourneyRecord) (movements : List GeofencingRow)
    (h : sumValues acc.journeyCounts = k + js.length) :
    sumValues (countsProcessDevice extra acc movements).journeyCounts =
      k + (listProcessDevice extra none d js movements).length := by
  have h0 : StepRel k ⟨[], [], acc⟩ ⟨[], [], js⟩ := ⟨rfl, rfl, h⟩
  exact (foldRel_preserved extra d k movements _ _ h0).2.2

theorem devicesFold_rel (extra : Option Int) (k : Nat) :
    ∀ (entries : List (String × List GeofencingRow)) (acc : CountsAcc)
      (js : List JourneyRecord),
      sumValues acc.journeyCounts = k + js.length →
      sumValues
          ((entries.foldl (fun a p => countsProcessDevice extra a p.2) acc).journeyCounts) =
        k + (entries.foldl (fun j p => listProcessDevice extra none p.1 j p.2) js).length := by
  intro entries
  induction entries with
  | nil => intro acc js h; exact h
  | cons e entries ih =>
    intro acc js h
    exact ih _ _ (processDevice_rel extra e.1 k acc js e.2 h)

theorem groupAndCollect_fst_aux :
    ∀ (rows : List GeofencingRow) (dm : List (String × List GeofencingRow))
      (fd : List (String × FacilityDetails)),
      (rows.foldl
        (fun st row =>
          if row.device_id = "" then st
          else
            let dm := upsertWith st.1 row.device_id (fun l => (l.getD []) ++ [row])
            let fd :=
              if row.facility_id ≠ "" ∧ (lookupA st.2 row.facility_id).isNone then
                st.2 ++
                  [(row.facility_id,
                    ⟨row.facility_id, row.facility_type, row.facility_name⟩)]
              else st.2
            (dm, fd))
        (dm, fd)).1 =
      rows.foldl
        (fun m row =>
          if row.device_id = "" then m
          else upsertWith m row.device_id (fun l => (l.getD []) ++ [row]))
        dm := by
  intro rows
  induction rows with
  | nil => intro dm fd; rfl
  | cons r rows ih =>
    intro dm fd
    by_cases h : r.device_id = "" <;> simp only [List.foldl_cons, h, if_true, if_false,
      ite_true, ite_false, reduceIte] <;> apply ih

theorem groupAndCollect_fst (rows : List GeofencingRow) :
    (groupAndCollect rows).1 = groupByDevice rows := by
  unfold groupAndCollect groupByDevice
  exact groupAndCollect_fst_aux rows [] []

/-! ## Bridges between the entry points and their pipeline stages -/

theorem postFilterJournies_nil (ff : Option String) : postFilterJournies ff [] = [] := by
  unfold postFilterJournies
  split <;> simp

theorem counts_counts_bridge (rows : List GeofencingRow) (extra : Option Int) :
    (calculateJourneyCounts rows extra).counts = (countsDevicesFold extra rows).journeyCounts := by
  cases rows with
  | nil => rfl
  | cons r rs => rfl

theorem counts_total_bridge (rows : List GeofencingRow) (extra : Option Int) :
    (calculateJourneyCounts rows extra).total =
      sumValues (countsDevicesFold extra rows).journeyCounts := by
  cases rows with
  | nil => rfl
  | cons r rs => rfl

theorem counts_types_bridge (rows : List GeofencingRow) (extra : Option Int) :
    (calculateJourneyCounts rows extra).metadata.facility_types_found =
      sortStrings (countsDevicesFold extra rows).facility_types_found := by
  cases rows with
  | nil => rfl
  | cons r rs => rfl

theorem counts_unique_bridge (rows : List GeofencingRow) (extra : Option Int) :
    (calculateJourneyCounts rows extra).metadata.unique_facilities_found =
      (countsDevicesFold extra rows).facilities_found.length := by
  cases rows with
  | nil => rfl
  | cons r rs => rfl

theorem counts_devices_bridge (rows : List GeofencingRow) (extra : Option Int) :
    (calculateJourneyCounts rows extra).metadata.devices_processed =
      (groupByDevice rows).length := by
  cases rows with
  | nil => rfl
  | cons r rs => rfl

theorem list_journies_bridge (rows : List GeofencingRow) (extra : Option Int)
    (ff : Option String) :
    (calculateJourneyList rows extra ff).journies =
      postFilterJournies (normalizeFromFacility ff)
        (listDevicesFold extra (normalizeFromFacility ff) rows) := by
  cases rows with
  | nil => exact (postFilterJournies_nil _).symm
  | cons r rs => rfl

theorem list_fd_bridge (rows : List GeofencingRow) (extra : Option Int)
    (ff : Option String) :
    (calculateJourneyList rows extra ff).facilities_details = (groupAndCollect rows).2 := by
  cases rows with
  | nil => rfl
  | cons r rs => rfl

theorem postFilterJournies_none (l : List JourneyRecord) : postFilterJournies none l = l := by
  simp [postFilterJournies, jsTruthyStr]

/-- Shared core of P5: the counter total of the counts run equals the record
count of the (unfiltered) list run. -/
theorem total_eq_len (rows : List GeofencingRow) (extra : Option Int) :
    (calculateJourneyCounts rows extra).total =
      ((calculateJourneyList rows extra none).journies).length := by
  rw [counts_total_bridge, list_journies_bridge]
  have hn : normalizeFromFacility none = none := rfl
  rw [hn, postFilterJournies_none]
  unfold countsDevicesFold listDevicesFold
  rw [groupAndCollect_fst]
  simpa using devicesFold_rel extra 0
    ((groupByDevice rows).map (fun p => (p.1, sortMovements p.2))) ⟨[], [], []⟩ []
    (by simp [sumValues])

/-! ## Claim C3 -/

/-- **C3.** For every input row collection and every `extraSameFacilityHours`
value, the sum of `counts` values equals `total`, and `total` equals the
length of the `journies` list that `calculateJourneyList` computes from the
same rows with no from-facility filter. -/
theorem claim_C3_counts_list_consistency (rows : List GeofencingRow) (extra : Option Int) :
    sumValues (calculateJourneyCounts rows extra).counts =
        (calculateJourneyCounts rows extra).total ∧
      (calculateJourneyCounts rows extra).total =
        ((calculateJourneyList rows extra none).journies).length := by
  constructor
  · rw [counts_counts_bridge, counts_total_bridge]
  · exact total_eq_len rows extra

/-! ## Claim C4 -/

/-- Index of the most recent (last) visit to facility `f` in a visit list. -/
def lastIndexOf : List Visit → String → Option Nat
  | [], _ => none
  | v :: rest, f =>
    match lastIndexOf rest f with
    | some i => some (i + 1)
    | none => if v.facility_id = f then some 0 else none

theorem lastIndexOf_append_single (l : List Visit) (v : Visit) (f : String) :
    lastIndexOf (l ++ [v]) f =
      if v.facility_id = f then some l.length else lastIndexOf l f := by
  induction l with
  | nil => by_cases h : v.facility_id = f <;> simp [lastIndexOf, h]
  | cons x l ih =>
    simp only [List.cons_append, lastIndexOf, List.append_eq]
    rw [ih]
    by_cases h : v.facility_id = f
    · simp [h]
    · simp [h]

/-- The `facilityLastIndex` invariant: the map sends every facility to the
index of its most recent visit in the accumulated visit list (and contains
no other entries). -/
def FliInv (st : CountsDevState) : Prop :=
  ∀ f, lookupA st.facilityLastIndex f = lastIndexOf st.visits f

theorem countsStep_fliInv (extra : Option Int) (mv : GeofencingRow) (st : CountsDevState)
    (h : FliInv st) : FliInv (countsStep extra st mv) := by
  rcases hc : convertToUnixTimestamp mv.entry_event_time with _ | et
  · rw [countsStep_entry_none extra st mv hc]; exact h
  · by_cases hf : mv.facility_id = ""
    · rw [countsStep_fid_empty extra st mv hf]; exact h
    · rw [countsStep_valid extra st mv et hc hf]
      intro f
      dsimp only
      rw [lookupA_upsertA, lastIndexOf_append_single]
      by_cases hq : f = mv.facility_id
      · simp [hq]
      · have hv : ¬ ((⟨mv.facility_id, jsTrim (mv.facility_type.getD ""), et,
            convertToUnixTimestamp mv.exit_event_time⟩ : Visit).facility_id = f) :=
          fun hh => hq hh.symm
        simp only [if_neg hq, if_neg hv]
        exact h f

theorem foldl_countsStep_fliInv (extra : Option Int) :
    ∀ (movements : List GeofencingRow) (st : CountsDevState),
      FliInv st → FliInv (movements.foldl (countsStep extra) st) := by
  intro movements
  induction movements with
  | nil => intro st h; exact h
  | cons mv movements ih =>
    intro st h
    exact ih _ (countsStep_fliInv extra mv st h)

/-- **C4.** Throughout edge generation for one device, `facilityLastIndex`
maps each facility id to the index of the most recent visit to that
facility among the visits accumulated so far, and nothing else; in
particular, right after a visit is processed, its facility maps to its own
index, overwriting any prior index.  The first conjunct states the
invariant after any prefix of the device's movement list (so "at the moment
visit `k` is processed" the map reflects exactly visits `0..k-1`, the
current visit not yet being registered — the update happens inside
`countsStep`, after the emission loop reads the old map); the second
conjunct makes the overwrite-with-`k` behavior of one processing step
explicit. -/
theorem claim_C4_facilityLastIndex_invariant :
    (∀ (extra : Option Int) (acc : CountsAcc) (movements : List GeofencingRow) (f : String),
        lookupA ((movements.foldl (countsStep extra) ⟨[], [], acc⟩).facilityLastIndex) f =
          lastIndexOf ((movements.foldl (countsStep extra) ⟨[], [], acc⟩).visits) f) ∧
    (∀ (extra : Option Int) (st : CountsDevState) (mv : GeofencingRow) (et : Int),
        convertToUnixTimestamp mv.entry_event_time = some et → mv.facility_id ≠ "" →
        lookupA ((countsStep extra st mv).facilityLastIndex) mv.facility_id =
          some st.visits.length) := by
  constructor
  · intro extra acc movements f
    exact foldl_countsStep_fliInv extra movements ⟨[], [], acc⟩
      (fun f => by simp [lookupA, lastIndexOf]) f
  · intro extra st mv et hc hf
    rw [countsStep_valid extra st mv et hc hf]
    dsimp only
    rw [lookupA_upsertA]
    simp

/-! ## Concrete example rows (used by concrete instances and witnesses) -/

def exRowA : GeofencingRow := ⟨"d1", "A", some "typeA", some "Fac A", .num 90000, .num 100000⟩
def exRowB4h : GeofencingRow := ⟨"d1", "B", some "typeB", some "Fac B", .num 114400, .null⟩
def exRowBShort : GeofencingRow := ⟨"d1", "B", some "typeB", some "Fac B", .num 114399, .null⟩
def exRowASelf5h : GeofencingRow := ⟨"d1", "A", none, none, .num 118000, .null⟩
def exRowASelf7h : GeofencingRow := ⟨"d1", "A", none, none, .num 125200, .null⟩
def exRowP3B : GeofencingRow := ⟨"d1", "B", none, none, .num 118000, .num 121600⟩
def exRowP3C : GeofencingRow := ⟨"d1", "C", none, none, .num 139600, .null⟩

/-! ## Claim C1 -/

/-- **C1.** The validity rule: a candidate edge is emitted iff both
timestamps pass the presence check (where, as the code's truthiness test
has it, a `0` timestamp counts as absent — see C10) and
`toTime - fromTime ≥ 14400`, the minimum being
`14400 + extraSameFacilityHours * 3600` for a self-loop with a truthy
`extraSameFacilityHours`; a gap of exactly the minimum produces an edge.
Conjuncts: (1) the iff characterization of `validJourneyTime`; (2) the
emission guard used by both movement loops coincides with
`validJourneyTime`; (3)–(6) concrete boundary instances through the two
entry points (exact 4 h gap emits, one second less does not; a 5 h
self-loop gap with 2 extra hours does not emit, 7 h emits with
`journey_time = 25200`). -/
theorem claim_C1_validity_rule :
    (∀ (ft tt : Option Int) (same : Bool) (extra : Option Int),
        validJourneyTime ft tt same extra = true ↔
          ∃ f t, ft = some f ∧ tt = some t ∧ f ≠ 0 ∧ t ≠ 0 ∧
            t - f ≥ (if same && jsTruthyI extra then 14400 + (extra.getD 0) * 3600
                     else 14400)) ∧
    (∀ (ft : Option Int) (t : Int) (same : Bool) (extra : Option Int),
        (jsTruthyI ft && jsTruthyI (some t) && validJourneyTime ft (some t) same extra) =
          validJourneyTime ft (some t) same extra) ∧
    (calculateJourneyCounts [exRowA, exRowB4h] none).total = 1 ∧
    (calculateJourneyCounts [exRowA, exRowBShort] none).total = 0 ∧
    (calculateJourneyCounts [exRowA, exRowASelf5h] (some 2)).total = 0 ∧
    (calculateJourneyList [exRowA, exRowASelf7h] (some 2) none).journies =
      [⟨"A", "A", "d1", some 25200, 125200, some 100000⟩] := by
  refine ⟨?_, ?_, by decide, by decide, by decide, by decide⟩
  · intro ft tt same extra
    rcases ft with _ | f <;> rcases tt with _ | t
    · simp [validJourneyTime, jsTruthyI]
    · simp [validJourneyTime, jsTruthyI]
    · simp [validJourneyTime, jsTruthyI]
    · by_cases hf : f = 0
      · simp [validJourneyTime, jsTruthyI, hf]
      · by_cases ht : t = 0
        · simp [validJourneyTime, jsTruthyI, hf, ht]
        · simp [validJourneyTime, jsTruthyI, hf, ht]
  · intro ft t same extra
    rcases ft with _ | f
    · simp [validJourneyTime, jsTruthyI]
    · by_cases hf : f = 0
      · simp [validJourneyTime, jsTruthyI, hf]
      · by_cases ht : t = 0
        · simp [validJourneyTime, jsTruthyI, hf, ht]
        · simp [validJourneyTime, jsTruthyI, hf, ht]

/-! ## Claim C2 -/

/-- **C2.** When a visit at index `i > 0` is processed, the list movement
loop evaluates one candidate edge for every entry of the (pre-update)
`facilityLastIndex` — each using the source visit's own exit time and the
current visit's entry time, via `listEmitOne` — and only afterwards is
`facilityLastIndex` updated to map the current facility to `i`
(conjunct 1: the step equals the old state with the visit appended, the
journey records extended by the fold of `listEmitOne` over the *old* map,
and the map updated *after*).  Conjunct 2 instantiates scenario P3: for
visits A (exit `t0`), B (entry `t0+5h`, exit `t0+6h`), C (entry `t0+11h`),
both A→C and B→C are emitted, each from its own source exit time. -/
theorem claim_C2_fanout_all_entries :
    (∀ (extra : Option Int) (ff : Option String) (d : String) (st : ListDevState)
        (mv : GeofencingRow) (et : Int),
        convertToUnixTimestamp mv.entry_event_time = some et →
        mv.facility_id ≠ "" →
        st.visits ≠ [] →
        listStep extra ff d st mv =
          ⟨st.visits ++ [⟨mv.facility_id, et, convertToUnixTimestamp mv.exit_event_time⟩],
           upsertA st.facilityLastIndex mv.facility_id st.visits.length,
           st.journies ++
             st.facilityLastIndex.foldl
               (listEmitOne extra ff d
                 (st.visits ++
                   [⟨mv.facility_id, et, convertToUnixTimestamp mv.exit_event_time⟩])
                 mv.facility_id et)
               []⟩) ∧
    (calculateJourneyList [exRowA, exRowP3B, exRowP3C] none none).journies =
      [⟨"A", "B", "d1", some 18000, 118000, some 100000⟩,
       ⟨"A", "C", "d1", some 39600, 139600, some 100000⟩,
       ⟨"B", "C", "d1", some 18000, 139600, some 121600⟩] := by
  constructor
  · intro extra ff d st mv et hc hf hv
    rw [listStep_valid extra ff d st mv et hc hf]
    have hpos : 0 < st.visits.length := List.length_pos.mpr hv
    rw [if_pos hpos]
    rw [foldl_listEmitOne_append]
  · decide

/-- The P3 mid-scan state: visits A and B already processed. -/
def exStP3 : ListDevState :=
  ⟨[⟨"A", 90000, some 100000⟩, ⟨"B", 118000, some 121600⟩],
   [("A", 0), ("B", 1)],
   [⟨"A", "B", "d1", some 18000, 118000, some 100000⟩]⟩

/-- Witness for C2: the step characterization applied at the concrete P3
state for visit C, every hypothesis discharged by evaluation. -/
theorem claim_C2_fanout_all_entries_witness :
    (convertToUnixTimestamp exRowP3C.entry_event_time = some 139600) ∧
    (exRowP3C.facility_id ≠ "") ∧
    (exStP3.visits ≠ []) ∧
    listStep none none "d1" exStP3 exRowP3C =
      ⟨exStP3.visits ++
         [⟨exRowP3C.facility_id, 139600, convertToUnixTimestamp exRowP3C.exit_event_time⟩],
       upsertA exStP3.facilityLastIndex exRowP3C.facility_id exStP3.visits.length,
       exStP3.journies ++
         exStP3.facilityLastIndex.foldl
           (listEmitOne none none "d1"
             (exStP3.visits ++
               [⟨exRowP3C.facility_id, 139600,
                 convertToUnixTimestamp exRowP3C.exit_event_time⟩])
             exRowP3C.facility_id 139600)
           []⟩ :=
  ⟨by decide, by decide, by decide,
   claim_C2_fanout_all_entries.1 none none "d1" exStP3 exRowP3C 139600
     (by decide) (by decide) (by decide)⟩

/-- A counts-side mid-scan state (visits A and B processed), used to witness
the step conjunct of C4. -/
def exCStP3 : CountsDevState :=
  ⟨[⟨"A", "typeA", 90000, some 100000⟩, ⟨"B", "", 118000, some 121600⟩],
   [("A", 0), ("B", 1)],
   ⟨[("A||B", 1)], ["typeA"], ["A", "B"]⟩⟩

/-- Witness for C4: the overwrite conjunct applied at a concrete state and
movement, both hypotheses discharged by evaluation. -/
theorem claim_C4_facilityLastIndex_invariant_witness :
    (convertToUnixTimestamp exRowP3C.entry_event_time = some 139600) ∧
    (exRowP3C.facility_id ≠ "") ∧
    lookupA ((countsStep none exCStP3 exRowP3C).facilityLastIndex) exRowP3C.facility_id =
      some exCStP3.visits.length :=
  ⟨by decide, by decide,
   claim_C4_facilityLastIndex_invariant.2 none exCStP3 exRowP3C 139600
     (by decide) (by decide)⟩

/-! ## Record soundness of the journey list (towards C5 and C10) -/

theorem listEmitOne_mem (extra : Option Int) (ff : Option String) (d : String)
    (v : List ListVisit) (fid : String) (et : Int) (js : List JourneyRecord)
    (e : String × Nat) (j : JourneyRecord)
    (hj : j ∈ listEmitOne extra ff d v fid et js e) :
    j ∈ js ∨ (jsTruthyI j.exit_time = true ∧ j.entry_time ≠ 0) := by
  unfold listEmitOne at hj
  dsimp only at hj
  split at hj
  · split at hj
    · exact Or.inl hj
    · split at hj
      · exact Or.inl hj
      · split at hj
        · rename_i tv hmatch hskip hguard
          rcases List.mem_append.mp hj with h1 | h1
          · exact Or.inl h1
          · right
            simp only [List.mem_singleton] at h1
            subst h1
            simp only [Bool.and_eq_true] at hguard
            obtain ⟨⟨hg1, hg2⟩, -⟩ := hguard
            exact ⟨hg1, by simpa [jsTruthyI] using hg2⟩
        · exact Or.inl hj
  · exact Or.inl hj

theorem foldl_listEmitOne_mem (extra : Option Int) (ff : Option String) (d : String)
    (v : List ListVisit) (fid : String) (et : Int) :
    ∀ (fli : List (String × Nat)) (js : List JourneyRecord) (j : JourneyRecord),
      j ∈ fli.foldl (listEmitOne extra ff d v fid et) js →
      j ∈ js ∨ (jsTruthyI j.exit_time = true ∧ j.entry_time ≠ 0) := by
  intro fli
  induction fli with
  | nil => intro js j hj; exact Or.inl hj
  | cons e fli ih =>
    intro js j hj
    rcases ih _ j hj with h1 | h1
    · exact listEmitOne_mem extra ff d v fid et js e j h1
    · exact Or.inr h1

theorem listStep_mem (extra : Option Int) (ff : Option String) (d : String)
    (st : ListDevState) (mv : GeofencingRow) (j : JourneyRecord)
    (hj : j ∈ (listStep extra ff d st mv).journies) :
    j ∈ st.journies ∨ (jsTruthyI j.exit_time = true ∧ j.entry_time ≠ 0) := by
  rcases hc : convertToUnixTimestamp mv.entry_event_time with _ | et
  · rw [listStep_entry_none extra ff d st mv hc] at hj; exact Or.inl hj
  · by_cases hf : mv.facility_id = ""
    · rw [listStep_fid_empty extra ff d st mv hf] at hj; exact Or.inl hj
    · rw [listStep_valid extra ff d st mv et hc hf] at hj
      dsimp only at hj
      by_cases hpos : 0 < st.visits.length
      · rw [if_pos hpos] at hj
        exact foldl_listEmitOne_mem extra ff d _ _ et _ _ j hj
      · rw [if_neg hpos] at hj; exact Or.inl hj

theorem foldl_listStep_mem (extra : Option Int) (ff : Option String) (d : String) :
    ∀ (movements : List GeofencingRow) (st : ListDevState) (j : JourneyRecord),
      j ∈ (movements.foldl (listStep extra ff d) st).journies →
      j ∈ st.journies ∨ (jsTruthyI j.exit_time = true ∧ j.entry_time ≠ 0) := by
  intro movements
  induction movements with
  | nil => intro st j hj; exact Or.inl hj
  | cons mv movements ih =>
    intro st j hj
    rcases ih _ j hj with h1 | h1
    · exact listStep_mem extra ff d st mv j h1
    · exact Or.inr h1

theorem listDevicesFold_mem (extra : Option Int) (ff : Option String)
    (rows : List GeofencingRow) (j : JourneyRecord)
    (hj : j ∈ listDevicesFold extra ff rows) :
    jsTruthyI j.exit_time = true ∧ j.entry_time ≠ 0 := by
  unfold listDevicesFold at hj
  revert hj
  generalize ((groupAndCollect rows).1).map (fun p => (p.1, sortMovements p.2)) = entries
  show j ∈ entries.foldl (fun js p => listProcessDevice extra ff p.1 js p.2) [] → _
  have : ∀ (entries : List (String × List GeofencingRow)) (js : List JourneyRecord),
      j ∈ entries.foldl (fun js p => listProcessDevice extra ff p.1 js p.2) js →
      j ∈ js ∨ (jsTruthyI j.exit_time = true ∧ j.entry_time ≠ 0) := by
    intro entries
    induction entries with
    | nil => intro js hj; exact Or.inl hj
    | cons e entries ih =>
      intro js hj
      rcases ih _ hj with h1 | h1
      · rcases foldl_listStep_mem extra ff e.1 e.2 ⟨[], [], js⟩ j h1 with h2 | h2
        · exact Or.inl h2
        · exact Or.inr h2
      · exact Or.inr h1
  intro hj
  rcases this entries [] hj with h1 | h1
  · simp at h1
  · exact h1

theorem postFilterJournies_mem (ff : Option String) (l : List JourneyRecord)
    (j : JourneyRecord) (hj : j ∈ postFilterJournies ff l) : j ∈ l := by
  unfold postFilterJournies at hj
  split at hj
  · exact List.mem_of_mem_filter hj
  · exact hj

/-- Every record produced by `calculateJourneyList` carries a truthy
departure time and a nonzero arrival time (shared core of C5 and C10). -/
theorem journies_sound (rows : List GeofencingRow) (extra : Option Int)
    (ff : Option String) (j : JourneyRecord)
    (hj : j ∈ (calculateJourneyList rows extra ff).journies) :
    jsTruthyI j.exit_time = true ∧ j.entry_time ≠ 0 := by
  rw [list_journies_bridge] at hj
  exact listDevicesFold_mem extra (normalizeFromFacility ff) rows j
    (postFilterJournies_mem _ _ j hj)

/-! ## Claim C5 -/

/-- **C5.** A visit with no exit time never sources a journey edge: every
record either entry point produces carries a present (and nonzero)
departure time — the departure time being, by construction of the emission
loop, the source visit's own `exit_time` — so a visit whose
`exit_event_time` normalizes to `null` can never be the `from_facility`
source of an edge.  The second conjunct carries the counts side: the
counter total equals the number of these (all exit-carrying) records. -/
theorem claim_C5_no_exit_no_source :
    (∀ (rows : List GeofencingRow) (extra : Option Int) (ff : Option String)
        (j : JourneyRecord), j ∈ (calculateJourneyList rows extra ff).journies →
        ∃ t, j.exit_time = some t ∧ t ≠ 0) ∧
    (∀ (rows : List GeofencingRow) (extra : Option Int),
        (calculateJourneyCounts rows extra).total =
          ((calculateJourneyList rows extra none).journies).length) := by
  constructor
  · intro rows extra ff j hj
    have h := (journies_sound rows extra ff j hj).1
    rcases he : j.exit_time with _ | t
    · rw [he] at h; simp [jsTruthyI] at h
    · rw [he] at h
      exact ⟨t, rfl, by simpa [jsTruthyI] using h⟩
  · exact total_eq_len

/-- Witness for C5 at a concrete emitted record. -/
theorem claim_C5_no_exit_no_source_witness :
    ((⟨"A", "B", "d1", some 14400, 114400, some 100000⟩ : JourneyRecord) ∈
        (calculateJourneyList [exRowA, exRowB4h] none none).journies) ∧
    (∃ t, (⟨"A", "B", "d1", some 14400, 114400, some 100000⟩ : JourneyRecord).exit_time =
        some t ∧ t ≠ 0) :=
  ⟨by decide, claim_C5_no_exit_no_source.1 [exRowA, exRowB4h] none none _ (by decide)⟩

/-! ## Claim C10 -/

/-- **C10.** A timestamp equal to `0` (the Unix epoch) is treated by the
validity check exactly like a missing timestamp (`!fromTime || !toTime`
rejects both `null` and `0`), so no emitted record ever has
`departure_time`/`arrival_time` equal to `0` — even when both timestamps
are present and far enough apart. -/
theorem claim_C10_zero_epoch_as_missing :
    (∀ (ft tt : Option Int) (same : Bool) (extra : Option Int),
        ft = some 0 ∨ tt = some 0 → validJourneyTime ft tt same extra = false) ∧
    (∀ (rows : List GeofencingRow) (extra : Option Int) (ff : Option String)
        (j : JourneyRecord), j ∈ (calculateJourneyList rows extra ff).journies →
        j.entry_time ≠ 0 ∧ j.exit_time ≠ some 0 ∧ j.exit_time ≠ none) := by
  constructor
  · intro ft tt same extra h
    rcases h with h | h <;> subst h <;> simp [validJourneyTime, jsTruthyI]
  · intro rows extra ff j hj
    have h := journies_sound rows extra ff j hj
    refine ⟨h.2, ?_, ?_⟩
    · intro he
      have h1 := h.1
      rw [he] at h1
      simp [jsTruthyI] at h1
    · intro he
      have h1 := h.1
      rw [he] at h1
      simp [jsTruthyI] at h1

/-- Witness for C10: the zero-departure rejection at concrete timestamps
whose gap far exceeds the minimum, and the record-level consequence at a
concrete emitted record. -/
theorem claim_C10_zero_epoch_as_missing_witness :
    ((some (0 : Int) = some 0 ∨ (some 20000 : Option Int) = some 0) ∧
      validJourneyTime (some 0) (some 20000) false none = false) ∧
    ((⟨"A", "B", "d1", some 14400, 114400, some 100000⟩ : JourneyRecord) ∈
        (calculateJourneyList [exRowA, exRowB4h] none none).journies ∧
      ((⟨"A", "B", "d1", some 14400, 114400, some 100000⟩ : JourneyRecord).entry_time ≠ 0 ∧
       (⟨"A", "B", "d1", some 14400, 114400, some 100000⟩ : JourneyRecord).exit_time ≠
          some 0 ∧
       (⟨"A", "B", "d1", some 14400, 114400, some 100000⟩ : JourneyRecord).exit_time ≠
          none)) :=
  ⟨⟨Or.inl rfl,
    claim_C10_zero_epoch_as_missing.1 (some 0) (some 20000) false none (Or.inl rfl)⟩,
   ⟨by decide,
    claim_C10_zero_epoch_as_missing.2 [exRowA, exRowB4h] none none _ (by decide)⟩⟩

/-! ## Claim C7 -/

theorem lookupA_append {α : Type} (m1 m2 : List (String × α)) (k : String) :
    lookupA (m1 ++ m2) k =
      match lookupA m1 k with
      | some v => some v
      | none => lookupA m2 k := by
  induction m1 with
  | nil => simp [lookupA]
  | cons p m1 ih =>
    obtain ⟨k', v⟩ := p
    by_cases h : k' = k <;> simp [lookupA, h, ih]

theorem groupAndCollect_snd_aux (f : String) :
    ∀ (rows : List GeofencingRow) (dm : List (String × List GeofencingRow))
      (fd : List (String × FacilityDetails)),
      lookupA
          ((rows.foldl
            (fun st row =>
              if row.device_id = "" then st
              else
                let dm := upsertWith st.1 row.device_id (fun l => (l.getD []) ++ [row])
                let fd :=
                  if row.facility_id ≠ "" ∧ (lookupA st.2 row.facility_id).isNone then
                    st.2 ++
                      [(row.facility_id,
                        ⟨row.facility_id, row.facility_type, row.facility_name⟩)]
                  else st.2
                (dm, fd))
            (dm, fd)).2) f =
        match lookupA fd f with
        | some v => some v
        | none =>
          (rows.find?
              (fun r => decide (r.device_id ≠ "") && (r.facility_id == f) &&
                decide (f ≠ ""))).map
            (fun r => (⟨r.facility_id, r.facility_type, r.facility_name⟩ : FacilityDetails)) := by
  intro rows
  induction rows with
  | nil =>
    intro dm fd
    rcases h : lookupA fd f with _ | v <;> simp [h]
  | cons r rows ih =>
    intro dm fd
    by_cases hdev : r.device_id = ""
    · have hfind : List.find?
          (fun r => decide (r.device_id ≠ "") && (r.facility_id == f) && decide (f ≠ ""))
          (r :: rows) =
          List.find?
            (fun r => decide (r.device_id ≠ "") && (r.facility_id == f) && decide (f ≠ ""))
            rows :=
        List.find?_cons_of_neg _ (by simp [hdev])
      rw [List.foldl_cons, if_pos hdev, hfind]
      exact ih dm fd
    · have hstep : (if r.device_id = "" then (dm, fd)
          else
            let dm' := upsertWith dm r.device_id (fun l => (l.getD []) ++ [r])
            let fd' :=
              if r.facility_id ≠ "" ∧ (lookupA fd r.facility_id).isNone then
                fd ++ [(r.facility_id, ⟨r.facility_id, r.facility_type, r.facility_name⟩)]
              else fd
            (dm', fd')) =
          (upsertWith dm r.device_id (fun l => (l.getD []) ++ [r]),
           if r.facility_id ≠ "" ∧ (lookupA fd r.facility_id).isNone then
             fd ++ [(r.facility_id, ⟨r.facility_id, r.facility_type, r.facility_name⟩)]
           else fd) := by
        rw [if_neg hdev]
      by_cases hmatch : r.facility_id = f ∧ f ≠ ""
      · obtain ⟨hfid, hne⟩ := hmatch
        have hfind : List.find?
            (fun r => decide (r.device_id ≠ "") && (r.facility_id == f) && decide (f ≠ ""))
            (r :: rows) = some r :=
          List.find?_cons_of_pos _ (by simp [hdev, hfid, hne])
        rw [List.foldl_cons, hstep, hfind, ih]
        rcases hlook : lookupA fd f with _ | v
        · have hcond : r.facility_id ≠ "" ∧ (lookupA fd r.facility_id).isNone := by
            rw [hfid]
            exact ⟨hne, by rw [hlook]; rfl⟩
          rw [if_pos hcond, lookupA_append, hfid, hlook]
          simp [lookupA, hfid]
        · have hcond : ¬(r.facility_id ≠ "" ∧ (lookupA fd r.facility_id).isNone) := by
            rw [hfid, hlook]
            simp
          rw [if_neg hcond, hlook]
      · have hfind : List.find?
            (fun r => decide (r.device_id ≠ "") && (r.facility_id == f) && decide (f ≠ ""))
            (r :: rows) =
            List.find?
              (fun r => decide (r.device_id ≠ "") && (r.facility_id == f) &&
                decide (f ≠ ""))
              rows :=
          List.find?_cons_of_neg _ (by
            intro hcontra
            simp only [Bool.and_eq_true, decide_eq_true_eq, beq_iff_eq] at hcontra
            exact hmatch ⟨hcontra.1.2, hcontra.2⟩)
        rw [List.foldl_cons, hstep, hfind, ih]
        have hfd' : lookupA
            (if r.facility_id ≠ "" ∧ (lookupA fd r.facility_id).isNone then
              fd ++ [(r.facility_id, ⟨r.facility_id, r.facility_type, r.facility_name⟩)]
            else fd) f = lookupA fd f := by
          split
          · rw [lookupA_append]
            rcases hlook : lookupA fd f with _ | v
            · rename_i hcond
              have hkey : ¬(r.facility_id = f) := by
                intro hh
                rcases (not_and_or.mp hmatch) with h | h
                · exact h hh
                · simp only [ne_eq, not_not] at h
                  exact hcond.1 (hh.trans h)
              simp [lookupA, hkey]
            · rfl
          · rfl
        rw [hfd']

/-- **C7 (amended).** `facilities_details` is exactly the first-seen
facility details over rows with a *nonempty* `device_id` (the collection
loop `continue`s on empty device ids before collecting) and a nonempty
`facility_id`, independent of the from-facility filter and of entry-time
validity.  The claim as stated — an entry for every facility id appearing
in *any* raw input row — fails on rows with an empty `device_id`; see the
counterexample. -/
theorem claim_C7_facilities_details_first_seen (rows : List GeofencingRow)
    (extra : Option Int) (ff : Option String) (f : String) :
    lookupA (calculateJourneyList rows extra ff).facilities_details f =
      (rows.find?
          (fun r => decide (r.device_id ≠ "") && (r.facility_id == f) &&
            decide (f ≠ ""))).map
        (fun r => (⟨r.facility_id, r.facility_type, r.facility_name⟩ : FacilityDetails)) := by
  rw [list_fd_bridge]
  unfold groupAndCollect
  rw [groupAndCollect_snd_aux f rows [] []]
  simp [lookupA]

/-- A raw row whose `device_id` is empty. -/
def exBadDevRow : GeofencingRow := ⟨"", "X", some "T", some "N", .num 100, .num 200⟩

/-- Counterexample to C7 as stated: facility `"X"` appears in a raw input
row, yet `facilities_details` has no entry for it, because that row's
`device_id` is empty and the collection loop skips it. -/
theorem claim_C7_counterexample :
    exBadDevRow.facility_id = "X" ∧
    lookupA (calculateJourneyList [exBadDevRow] none none).facilities_details "X" = none := by
  decide

/-! ## Claim C6 -/

theorem listEmitOne_some_eq (extra : Option Int) (d : String) (v : List ListVisit)
    (fid : String) (et : Int) (js : List JourneyRecord) (e : String × Nat) (fs : String) :
    listEmitOne extra (some fs) d v fid et js e =
      if fs ≠ "" ∧ e.1 ≠ fs then js
      else
        if emitsFromL extra v fid et e then
          js ++ [⟨e.1, fid, d,
                 if jsTruthyI (v[e.2]?.map ListVisit.exit_time |>.join) then
                   some (et - ((v[e.2]?.map ListVisit.exit_time |>.join).getD 0))
                 else none,
                 et, (v[e.2]?.map ListVisit.exit_time |>.join)⟩]
        else js := by
  unfold listEmitOne emitsFromL
  rcases h : v[e.2]? with _ | tv <;> by_cases hl : e.2 < v.length <;>
    by_cases hskip : fs ≠ "" ∧ e.1 ≠ fs <;>
    simp [h, hl, hskip, jsTruthyStr]

theorem listEmitOne_filter_eq (extra : Option Int) (d : String) (v : List ListVisit)
    (fid : String) (et : Int) (js : List JourneyRecord) (e : String × Nat) (fs : String)
    (hfs : fs ≠ "") :
    listEmitOne extra (some fs) d v fid et js e =
      js ++ (listEmitOne extra none d v fid et [] e).filter
        (fun j => j.from_facility == fs) := by
  rw [listEmitOne_none_eq, listEmitOne_some_eq]
  by_cases hpf : e.1 = fs
  · rw [if_neg (by simp [hpf])]
    by_cases hemit : emitsFromL extra v fid et e = true
    · rw [if_pos hemit, if_pos hemit]
      simp [hpf]
    · rw [if_neg hemit, if_neg hemit]
      simp
  · rw [if_pos ⟨hfs, hpf⟩]
    by_cases hemit : emitsFromL extra v fid et e = true
    · rw [if_pos hemit]
      simp [hpf]
    · rw [if_neg hemit]
      simp

theorem foldl_listEmitOne_filter (extra : Option Int) (d : String) (v : List ListVisit)
    (fid : String) (et : Int) (fs : String) (hfs : fs ≠ "") :
    ∀ (fli : List (String × Nat)) (jsU : List JourneyRecord),
      fli.foldl (listEmitOne extra (some fs) d v fid et)
          (jsU.filter (fun j => j.from_facility == fs)) =
        (fli.foldl (listEmitOne extra none d v fid et) jsU).filter
          (fun j => j.from_facility == fs) := by
  intro fli
  induction fli with
  | nil => intro jsU; rfl
  | cons e fli ih =>
    intro jsU
    simp only [List.foldl_cons]
    rw [listEmitOne_filter_eq extra d v fid et _ e fs hfs, ← List.filter_append,
        ih (jsU ++ listEmitOne extra none d v fid et [] e),
        ← listEmitOne_append extra none d v fid et jsU e]

/-- Simulation between the filtered and unfiltered list scans. -/
def FilterRel (fs : String) (stF stU : ListDevState) : Prop :=
  stF.visits = stU.visits ∧ stF.facilityLastIndex = stU.facilityLastIndex ∧
  stF.journies = stU.journies.filter (fun j => j.from_facility == fs)

theorem listStep_filter_rel (extra : Option Int) (d : String) (fs : String)
    (hfs : fs ≠ "") (mv : GeofencingRow) (stF stU : ListDevState)
    (h : FilterRel fs stF stU) :
    FilterRel fs (listStep extra (some fs) d stF mv) (listStep extra none d stU mv) := by
  obtain ⟨h1, h2, h3⟩ := h
  rcases hc : convertToUnixTimestamp mv.entry_event_time with _ | et
  · rw [listStep_entry_none _ _ _ _ _ hc, listStep_entry_none _ _ _ _ _ hc]
    exact ⟨h1, h2, h3⟩
  · by_cases hf : mv.facility_id = ""
    · rw [listStep_fid_empty _ _ _ _ _ hf, listStep_fid_empty _ _ _ _ _ hf]
      exact ⟨h1, h2, h3⟩
    · rw [listStep_valid extra (some fs) d stF mv et hc hf,
        listStep_valid extra none d stU mv et hc hf]
      refine ⟨by rw [h1], by rw [h1, h2], ?_⟩
      dsimp only
      rw [h1, h2]
      by_cases hpos : 0 < stU.visits.length
      · rw [if_pos hpos, if_pos hpos, h3]
        exact foldl_listEmitOne_filter extra d _ _ et fs hfs stU.facilityLastIndex
          stU.journies
      · rw [if_neg hpos, if_neg hpos]
        exact h3

theorem foldl_listStep_filter_rel (extra : Option Int) (d : String) (fs : String)
    (hfs : fs ≠ "") :
    ∀ (movements : List GeofencingRow) (stF stU : ListDevState),
      FilterRel fs stF stU →
      FilterRel fs (movements.foldl (listStep extra (some fs) d) stF)
        (movements.foldl (listStep extra none d) stU) := by
  intro movements
  induction movements with
  | nil => intro stF stU h; exact h
  | cons mv movements ih =>
    intro stF stU h
    exact ih _ _ (listStep_filter_rel extra d fs hfs mv stF stU h)

theorem listDevicesFold_filter (extra : Option Int) (fs : String) (hfs : fs ≠ "")
    (rows : List GeofencingRow) :
    listDevicesFold extra (some fs) rows =
      (listDevicesFold extra none rows).filter (fun j => j.from_facility == fs) := by
  unfold listDevicesFold
  generalize ((groupAndCollect rows).1).map (fun p => (p.1, sortMovements p.2)) = entries
  have hgen : ∀ (entries : List (String × List GeofencingRow)) (jsU : List JourneyRecord),
      entries.foldl (fun js p => listProcessDevice extra (some fs) p.1 js p.2)
          (jsU.filter (fun j => j.from_facility == fs)) =
        (entries.foldl (fun js p => listProcessDevice extra none p.1 js p.2) jsU).filter
          (fun j => j.from_facility == fs) := by
    intro entries
    induction entries with
    | nil => intro jsU; rfl
    | cons e entries ih =>
      intro jsU
      simp only [List.foldl_cons]
      have hdev := foldl_listStep_filter_rel extra e.1 fs hfs e.2
        ⟨[], [], jsU.filter (fun j => j.from_facility == fs)⟩ ⟨[], [], jsU⟩
        ⟨rfl, rfl, rfl⟩
      unfold listProcessDevice
      rw [hdev.2.2]
      exact ih _
  simpa using hgen entries []

/-- **C6 (amended).** When `calculateJourneyList` is called with a filter
whose trimmed value is *nonempty*, every returned record's `from_facility`
equals the filter under trimmed comparison, and each such record also
appears in the unfiltered run on the same rows.  The claim as stated —
for *every* non-null filter — fails: a falsy (`""`) or all-whitespace
filter disables filtering entirely (`fromFacility ? … : null`, and the
truthiness tests on the trimmed string); see the counterexample. -/
theorem claim_C6_from_facility_filter (rows : List GeofencingRow) (extra : Option Int)
    (f : String) (hf : jsTrim f ≠ "") :
    (∀ j ∈ (calculateJourneyList rows extra (some f)).journies,
        jsTrim j.from_facility = jsTrim f) ∧
    (∀ j ∈ (calculateJourneyList rows extra (some f)).journies,
        j ∈ (calculateJourneyList rows extra none).journies) := by
  have hfne : f ≠ "" := by
    intro hh
    subst hh
    exact hf rfl
  have hnorm : normalizeFromFacility (some f) = some (jsTrim f) := by
    simp [normalizeFromFacility, hfne]
  have hbr := list_journies_bridge rows extra (some f)
  rw [hnorm] at hbr
  have hpost : postFilterJournies (some (jsTrim f))
      (listDevicesFold extra (some (jsTrim f)) rows) =
      (listDevicesFold extra (some (jsTrim f)) rows).filter
        (fun j => jsTrim j.from_facility == jsTrim f) := by
    unfold postFilterJournies
    rw [if_pos (by simpa [jsTruthyStr] using hf)]
    rfl
  constructor
  · intro j hj
    rw [hbr, hpost] at hj
    have := List.of_mem_filter hj
    simpa using this
  · intro j hj
    rw [hbr, hpost] at hj
    have h1 : j ∈ listDevicesFold extra (some (jsTrim f)) rows :=
      List.mem_of_mem_filter hj
    rw [listDevicesFold_filter extra (jsTrim f) hf rows] at h1
    have h2 : j ∈ listDevicesFold extra none rows := List.mem_of_mem_filter h1
    rw [list_journies_bridge rows extra none]
    have hnone : normalizeFromFacility none = none := rfl
    rw [hnone, postFilterJournies_none]
    exact h2

/-- Witness for C6 at a concrete input: filter `"B"` on the P3 rows keeps
exactly the B→C record, which also appears in the unfiltered run. -/
theorem claim_C6_from_facility_filter_witness :
    (jsTrim "B" ≠ "") ∧
    ((⟨"B", "C", "d1", some 18000, 139600, some 121600⟩ : JourneyRecord) ∈
        (calculateJourneyList [exRowA, exRowP3B, exRowP3C] none (some "B")).journies) ∧
    jsTrim (⟨"B", "C", "d1", some 18000, 139600,
        some 121600⟩ : JourneyRecord).from_facility = jsTrim "B" ∧
    ((⟨"B", "C", "d1", some 18000, 139600, some 121600⟩ : JourneyRecord) ∈
        (calculateJourneyList [exRowA, exRowP3B, exRowP3C] none none).journies) :=
  ⟨by decide, by decide,
   (claim_C6_from_facility_filter [exRowA, exRowP3B, exRowP3C] none "B" (by decide)).1 _
     (by decide),
   (claim_C6_from_facility_filter [exRowA, exRowP3B, exRowP3C] none "B" (by decide)).2 _
     (by decide)⟩

/-- Counterexample to C6 as stated: with the non-null filter `""`,
filtering is disabled, and the returned list contains a record whose
`from_facility` does not match the filter under trimmed comparison. -/
theorem claim_C6_counterexample :
    ((calculateJourneyList [exRowA, exRowB4h] none (some "")).journies.all
      (fun j => jsTrim j.from_facility == jsTrim "")) = false := by
  decide

/-! ## Claim C8 -/

theorem countsProcessDevice_filter (extra : Option Int) (acc : CountsAcc)
    (l : List GeofencingRow) :
    countsProcessDevice extra acc l = countsProcessDevice extra acc (l.filter validMovement) := by
  unfold countsProcessDevice
  rw [foldl_congr_filter (countsStep extra) validMovement
    (fun st x hx => countsStep_skip extra st x hx) l]

theorem listProcessDevice_filter (extra : Option Int) (ff : Option String) (d : String)
    (js : List JourneyRecord) (l : List GeofencingRow) :
    listProcessDevice extra ff d js l =
      listProcessDevice extra ff d js (l.filter validMovement) := by
  unfold listProcessDevice
  rw [foldl_congr_filter (listStep extra ff d) validMovement
    (fun st x hx => listStep_skip extra ff d st x hx) l]

theorem countsProcessDevice_insert_bad (extra : Option Int) (acc : CountsAcc)
    (l : List GeofencingRow) (bad : GeofencingRow) (hbad : validMovement bad = false) :
    countsProcessDevice extra acc (insertSorted bad l) =
      countsProcessDevice extra acc l := by
  rw [countsProcessDevice_filter, filter_insertSorted_neg validMovement bad hbad l,
    ← countsProcessDevice_filter]

theorem listProcessDevice_insert_bad (extra : Option Int) (ff : Option String) (d : String)
    (js : List JourneyRecord) (l : List GeofencingRow) (bad : GeofencingRow)
    (hbad : validMovement bad = false) :
    listProcessDevice extra ff d js (insertSorted bad l) =
      listProcessDevice extra ff d js l := by
  rw [listProcessDevice_filter, filter_insertSorted_neg validMovement bad hbad l,
    ← listProcessDevice_filter]

theorem countsProcessDevice_single_bad (extra : Option Int) (acc : CountsAcc)
    (bad : GeofencingRow) (hbad : validMovement bad = false) :
    countsProcessDevice extra acc (sortMovements [bad]) = acc := by
  have h1 : sortMovements [bad] = [bad] := rfl
  rw [h1]
  unfold countsProcessDevice
  rw [List.foldl_cons, countsStep_skip extra _ bad hbad, List.foldl_nil]

theorem listProcessDevice_single_bad (extra : Option Int) (ff : Option String) (d : String)
    (js : List JourneyRecord) (bad : GeofencingRow) (hbad : validMovement bad = false) :
    listProcessDevice extra ff d js (sortMovements [bad]) = js := by
  have h1 : sortMovements [bad] = [bad] := rfl
  rw [h1]
  unfold listProcessDevice
  rw [List.foldl_cons, listStep_skip extra ff d _ bad hbad, List.foldl_nil]

theorem countsDevices_upsert_bad (extra : Option Int) (bad : GeofencingRow)
    (hbad : validMovement bad = false) (dev : String) :
    ∀ (m : List (String × List GeofencingRow)) (acc : CountsAcc),
      ((upsertWith m dev (fun l => (l.getD []) ++ [bad])).map
          (fun p => (p.1, sortMovements p.2))).foldl
        (fun acc p => countsProcessDevice extra acc p.2) acc =
      (m.map (fun p => (p.1, sortMovements p.2))).foldl
        (fun acc p => countsProcessDevice extra acc p.2) acc := by
  intro m
  induction m with
  | nil =>
    intro acc
    simp only [upsertWith, List.map_cons, List.map_nil, List.foldl_cons, List.foldl_nil,
      Option.getD_none, List.nil_append]
    exact countsProcessDevice_single_bad extra acc bad hbad
  | cons p m ih =>
    intro acc
    obtain ⟨k, l⟩ := p
    by_cases hk : k = dev
    · simp only [upsertWith, if_pos hk, List.map_cons, List.foldl_cons, Option.getD_some]
      have hsort : countsProcessDevice extra acc (sortMovements (l ++ [bad])) =
          countsProcessDevice extra acc (sortMovements l) := by
        rw [sortMovements_append_single, countsProcessDevice_insert_bad _ _ _ _ hbad]
      rw [hsort]
    · simp only [upsertWith, if_neg hk, List.map_cons, List.foldl_cons]
      exact ih _

theorem listDevices_upsert_bad (extra : Option Int) (ff : Option String)
    (bad : GeofencingRow) (hbad : validMovement bad = false) (dev : String) :
    ∀ (m : List (String × List GeofencingRow)) (js : List JourneyRecord),
      ((upsertWith m dev (fun l => (l.getD []) ++ [bad])).map
          (fun p => (p.1, sortMovements p.2))).foldl
        (fun js p => listProcessDevice extra ff p.1 js p.2) js =
      (m.map (fun p => (p.1, sortMovements p.2))).foldl
        (fun js p => listProcessDevice extra ff p.1 js p.2) js := by
  intro m
  induction m with
  | nil =>
    intro js
    simp only [upsertWith, List.map_cons, List.map_nil, List.foldl_cons, List.foldl_nil,
      Option.getD_none, List.nil_append]
    exact listProcessDevice_single_bad extra ff dev js bad hbad
  | cons p m ih =>
    intro js
    obtain ⟨k, l⟩ := p
    by_cases hk : k = dev
    · simp only [upsertWith, if_pos hk, List.map_cons, List.foldl_cons, Option.getD_some]
      have hsort : listProcessDevice extra ff k js (sortMovements (l ++ [bad])) =
          listProcessDevice extra ff k js (sortMovements l) := by
        rw [sortMovements_append_single, listProcessDevice_insert_bad _ _ _ _ _ _ hbad]
      rw [hsort]
    · simp only [upsertWith, if_neg hk, List.map_cons, List.foldl_cons]
      exact ih _

theorem groupByDevice_append_single (rows : List GeofencingRow) (bad : GeofencingRow) :
    groupByDevice (rows ++ [bad]) =
      if bad.device_id = "" then groupByDevice rows
      else upsertWith (groupByDevice rows) bad.device_id (fun l => (l.getD []) ++ [bad]) := by
  unfold groupByDevice
  rw [List.foldl_append]
  by_cases h : bad.device_id = "" <;> simp [h]

theorem groupAndCollect_append_devempty (rows : List GeofencingRow) (bad : GeofencingRow)
    (h : bad.device_id = "") : groupAndCollect (rows ++ [bad]) = groupAndCollect rows := by
  unfold groupAndCollect
  rw [List.foldl_append]
  simp [h]

theorem countsDevicesFold_append_bad (extra : Option Int) (rows : List GeofencingRow)
    (bad : GeofencingRow)
    (hbad : bad.device_id = "" ∨ convertToUnixTimestamp bad.entry_event_time = none) :
    countsDevicesFold extra (rows ++ [bad]) = countsDevicesFold extra rows := by
  unfold countsDevicesFold
  rw [groupByDevice_append_single]
  by_cases hdev : bad.device_id = ""
  · rw [if_pos hdev]
  · have hentry : convertToUnixTimestamp bad.entry_event_time = none := by
      rcases hbad with h | h
      · exact absurd h hdev
      · exact h
    have hvm : validMovement bad = false := by simp [validMovement, hentry]
    rw [if_neg hdev]
    exact countsDevices_upsert_bad extra bad hvm bad.device_id (groupByDevice rows) _

theorem listDevicesFold_append_bad (extra : Option Int) (ff : Option String)
    (rows : List GeofencingRow) (bad : GeofencingRow)
    (hbad : bad.device_id = "" ∨ convertToUnixTimestamp bad.entry_event_time = none) :
    listDevicesFold extra ff (rows ++ [bad]) = listDevicesFold extra ff rows := by
  unfold listDevicesFold
  rw [groupAndCollect_fst, groupAndCollect_fst, groupByDevice_append_single]
  by_cases hdev : bad.device_id = ""
  · rw [if_pos hdev]
  · have hentry : convertToUnixTimestamp bad.entry_event_time = none := by
      rcases hbad with h | h
      · exact absurd h hdev
      · exact h
    have hvm : validMovement bad = false := by simp [validMovement, hentry]
    rw [if_neg hdev]
    exact listDevices_upsert_bad extra ff bad hvm bad.device_id (groupByDevice rows) _

/-- **C8 (amended).** A row with an empty `device_id` or an unparseable
`entry_event_time` contributes no visit: adding it to the input leaves
`counts`, `total`, the generation metadata (`facility_types_found`,
`unique_facilities_found`) and `journies` unchanged, and with an empty
`device_id` also `devices_processed` and `facilities_details`; and
processing never raises (the embedding is total).  The claim as stated —
that such a row contributes to *no* output — fails: it is always counted in
`total_rows_processed`; it can contribute to `facility_type_map` (hence to
the type annotations of `journey_details`); and with a nonempty
`device_id` it also reaches `devices_processed` and `facilities_details`;
see the counterexample. -/
theorem claim_C8_invalid_row_exclusion (rows : List GeofencingRow) (bad : GeofencingRow)
    (extra : Option Int) (ff : Option String)
    (hbad : bad.device_id = "" ∨ convertToUnixTimestamp bad.entry_event_time = none) :
    (calculateJourneyCounts (rows ++ [bad]) extra).counts =
        (calculateJourneyCounts rows extra).counts ∧
    (calculateJourneyCounts (rows ++ [bad]) extra).total =
        (calculateJourneyCounts rows extra).total ∧
    (calculateJourneyCounts (rows ++ [bad]) extra).metadata.facility_types_found =
        (calculateJourneyCounts rows extra).metadata.facility_types_found ∧
    (calculateJourneyCounts (rows ++ [bad]) extra).metadata.unique_facilities_found =
        (calculateJourneyCounts rows extra).metadata.unique_facilities_found ∧
    (calculateJourneyList (rows ++ [bad]) extra ff).journies =
        (calculateJourneyList rows extra ff).journies ∧
    (bad.device_id = "" →
      (calculateJourneyCounts (rows ++ [bad]) extra).metadata.devices_processed =
          (calculateJourneyCounts rows extra).metadata.devices_processed ∧
      (calculateJourneyList (rows ++ [bad]) extra ff).facilities_details =
          (calculateJourneyList rows extra ff).facilities_details) := by
  refine ⟨?_, ?_, ?_, ?_, ?_, ?_⟩
  · rw [counts_counts_bridge, counts_counts_bridge,
      countsDevicesFold_append_bad extra rows bad hbad]
  · rw [counts_total_bridge, counts_total_bridge,
      countsDevicesFold_append_bad extra rows bad hbad]
  · rw [counts_types_bridge, counts_types_bridge,
      countsDevicesFold_append_bad extra rows bad hbad]
  · rw [counts_unique_bridge, counts_unique_bridge,
      countsDevicesFold_append_bad extra rows bad hbad]
  · rw [list_journies_bridge, list_journies_bridge,
      listDevicesFold_append_bad extra (normalizeFromFacility ff) rows bad hbad]
  · intro hdev
    constructor
    · rw [counts_devices_bridge, counts_devices_bridge, groupByDevice_append_single,
        if_pos hdev]
    · rw [list_fd_bridge, list_fd_bridge, groupAndCollect_append_devempty rows bad hdev]

/-- A row with a nonempty device id whose entry time does not parse. -/
def exBadEntryRow : GeofencingRow := ⟨"d9", "X", some "T", some "N", .str "not-a-date", .null⟩

/-- Counterexample to C8 as stated: a row with the unparseable entry time
`"not-a-date"` still shows up in the outputs — it is counted in
`total_rows_processed`, contributes its facility's type to
`facility_type_map`, counts toward `devices_processed`, and adds a
`facilities_details` entry. -/
theorem claim_C8_counterexample :
    convertToUnixTimestamp exBadEntryRow.entry_event_time = none ∧
    (calculateJourneyCounts [exBadEntryRow] none).metadata.total_rows_processed = 1 ∧
    lookupA (calculateJourneyCounts [exBadEntryRow] none).metadata.facility_type_map "X" =
      some "T" ∧
    (calculateJourneyCounts [exBadEntryRow] none).metadata.devices_processed = 1 ∧
    lookupA (calculateJourneyList [exBadEntryRow] none none).facilities_details "X" =
      some ⟨"X", some "T", some "N"⟩ := by
  decide

/-- Witness for C8: the exclusion theorem applied to concrete rows plus the
concrete unparseable-entry row, its hypothesis discharged by evaluation. -/
theorem claim_C8_invalid_row_exclusion_witness :
    (exBadEntryRow.device_id = "" ∨
      convertToUnixTimestamp exBadEntryRow.entry_event_time = none) ∧
    ((calculateJourneyCounts ([exRowA, exRowB4h] ++ [exBadEntryRow]) none).counts =
        (calculateJourneyCounts [exRowA, exRowB4h] none).counts ∧
     (calculateJourneyCounts ([exRowA, exRowB4h] ++ [exBadEntryRow]) none).total =
        (calculateJourneyCounts [exRowA, exRowB4h] none).total ∧
     (calculateJourneyCounts
          ([exRowA, exRowB4h] ++ [exBadEntryRow]) none).metadata.facility_types_found =
        (calculateJourneyCounts [exRowA, exRowB4h] none).metadata.facility_types_found ∧
     (calculateJourneyCounts
          ([exRowA, exRowB4h] ++ [exBadEntryRow]) none).metadata.unique_facilities_found =
        (calculateJourneyCounts [exRowA, exRowB4h] none).metadata.unique_facilities_found ∧
     (calculateJourneyList ([exRowA, exRowB4h] ++ [exBadEntryRow]) none none).journies =
        (calculateJourneyList [exRowA, exRowB4h] none none).journies ∧
     (exBadEntryRow.device_id = "" →
       (calculateJourneyCounts
            ([exRowA, exRowB4h] ++ [exBadEntryRow]) none).metadata.devices_processed =
          (calculateJourneyCounts [exRowA, exRowB4h] none).metadata.devices_processed ∧
       (calculateJourneyList
            ([exRowA, exRowB4h] ++ [exBadEntryRow]) none none).facilities_details =
          (calculateJourneyList [exRowA, exRowB4h] none none).facilities_details)) :=
  ⟨Or.inr (by decide),
   claim_C8_invalid_row_exclusion [exRowA, exRowB4h] exBadEntryRow none none
     (Or.inr (by decide))⟩

/-! ## Claim C9 -/

theorem mem_upsertWith {α : Type} (k : String) (g : Option α → α) :
    ∀ (m : List (String × α)) (e : String × α), e ∈ upsertWith m k g →
      e ∈ m ∨ e.2 = g none ∨ ∃ v, (k, v) ∈ m ∧ e.2 = g (some v) := by
  intro m
  induction m with
  | nil =>
    intro e he
    simp only [upsertWith, List.mem_singleton] at he
    subst he
    exact Or.inr (Or.inl rfl)
  | cons p m ih =>
    intro e he
    obtain ⟨k', v⟩ := p
    by_cases hk : k' = k
    · rw [upsertWith, if_pos hk] at he
      rcases List.mem_cons.mp he with h1 | h1
      · subst h1
        subst hk
        exact Or.inr (Or.inr ⟨v, List.mem_cons_self _ _, rfl⟩)
      · exact Or.inl (List.mem_cons_of_mem _ h1)
    · rw [upsertWith, if_neg hk] at he
      rcases List.mem_cons.mp he with h1 | h1
      · exact Or.inl (h1 ▸ List.mem_cons_self _ _)
      · rcases ih e h1 with h2 | h2 | ⟨w, hw, hv⟩
        · exact Or.inl (List.mem_cons_of_mem _ h2)
        · exact Or.inr (Or.inl h2)
        · exact Or.inr (Or.inr ⟨w, List.mem_cons_of_mem _ hw, hv⟩)

theorem groupByDevice_all (P : GeofencingRow → Prop) :
    ∀ (rows : List GeofencingRow) (dm : List (String × List GeofencingRow)),
      (∀ r ∈ rows, r.device_id ≠ "" → P r) →
      (∀ e ∈ dm, ∀ r ∈ e.2, P r) →
      ∀ e ∈ rows.foldl
          (fun m row =>
            if row.device_id = "" then m
            else upsertWith m row.device_id (fun l => (l.getD []) ++ [row]))
          dm,
        ∀ r ∈ e.2, P r := by
  intro rows
  induction rows with
  | nil => intro dm _ hdm e he; exact hdm e he
  | cons row rows ih =>
    intro dm hrows hdm
    simp only [List.foldl_cons]
    by_cases hdev : row.device_id = ""
    · rw [if_pos hdev]
      exact ih dm (fun r hr => hrows r (List.mem_cons_of_mem _ hr)) hdm
    · rw [if_neg hdev]
      apply ih _ (fun r hr => hrows r (List.mem_cons_of_mem _ hr))
      intro e he r hr
      rcases mem_upsertWith row.device_id _ dm e he with h1 | h1 | ⟨v, hv, hval⟩
      · exact hdm e h1 r hr
      · rw [h1] at hr
        simp only [Option.getD_none, List.nil_append, List.mem_singleton] at hr
        subst hr
        exact hrows r (List.mem_cons_self _ _) hdev
      · rw [hval] at hr
        simp only [Option.getD_some] at hr
        rcases List.mem_append.mp hr with h2 | h2
        · exact hdm (row.device_id, v) hv r h2
        · simp only [List.mem_singleton] at h2
          subst h2
          exact hrows r (List.mem_cons_self _ _) hdev

theorem countsProcessDevice_allbad (extra : Option Int) (acc : CountsAcc)
    (l : List GeofencingRow) (h : ∀ r ∈ l, validMovement r = false) :
    countsProcessDevice extra acc (sortMovements l) = acc := by
  rw [countsProcessDevice_filter]
  have hnil : (sortMovements l).filter validMovement = [] := by
    apply List.filter_eq_nil_iff.mpr
    intro a ha
    rw [(mem_sortMovements l a).mp ha |> h a]
    simp
  rw [hnil]
  rfl

theorem listProcessDevice_allbad (extra : Option Int) (ff : Option String) (d : String)
    (js : List JourneyRecord) (l : List GeofencingRow)
    (h : ∀ r ∈ l, validMovement r = false) :
    listProcessDevice extra ff d js (sortMovements l) = js := by
  rw [listProcessDevice_filter]
  have hnil : (sortMovements l).filter validMovement = [] := by
    apply List.filter_eq_nil_iff.mpr
    intro a ha
    rw [(mem_sortMovements l a).mp ha |> h a]
    simp
  rw [hnil]
  rfl

theorem countsDevicesFold_allbad (extra : Option Int) (rows : List GeofencingRow)
    (h : ∀ r ∈ rows, r.device_id = "" ∨ convertToUnixTimestamp r.entry_event_time = none) :
    countsDevicesFold extra rows = ⟨[], [], []⟩ := by
  unfold countsDevicesFold
  have hgroup : ∀ e ∈ groupByDevice rows, ∀ r ∈ e.2, validMovement r = false := by
    apply groupByDevice_all (fun r => validMovement r = false) rows []
    · intro r hr hdev
      rcases h r hr with h1 | h1
      · exact absurd h1 hdev
      · simp [validMovement, h1]
    · intro e he
      simp at he
  have hfold : ∀ (entries : List (String × List GeofencingRow)) (acc : CountsAcc),
      (∀ e ∈ entries, ∀ r ∈ e.2, validMovement r = false) →
      (entries.map (fun p => (p.1, sortMovements p.2))).foldl
        (fun acc p => countsProcessDevice extra acc p.2) acc = acc := by
    intro entries
    induction entries with
    | nil => intro acc _; rfl
    | cons e entries ih =>
      intro acc hall
      simp only [List.map_cons, List.foldl_cons]
      rw [countsProcessDevice_allbad extra acc e.2 (hall e (List.mem_cons_self _ _))]
      exact ih acc (fun e' he' => hall e' (List.mem_cons_of_mem _ he'))
  exact hfold (groupByDevice rows) ⟨[], [], []⟩ hgroup

theorem listDevicesFold_allbad (extra : Option Int) (ff : Option String)
    (rows : List GeofencingRow)
    (h : ∀ r ∈ rows, r.device_id = "" ∨ convertToUnixTimestamp r.entry_event_time = none) :
    listDevicesFold extra ff rows = [] := by
  unfold listDevicesFold
  rw [groupAndCollect_fst]
  have hgroup : ∀ e ∈ groupByDevice rows, ∀ r ∈ e.2, validMovement r = false := by
    apply groupByDevice_all (fun r => validMovement r = false) rows []
    · intro r hr hdev
      rcases h r hr with h1 | h1
      · exact absurd h1 hdev
      · simp [validMovement, h1]
    · intro e he
      simp at he
  have hfold : ∀ (entries : List (String × List GeofencingRow)) (js : List JourneyRecord),
      (∀ e ∈ entries, ∀ r ∈ e.2, validMovement r = false) →
      (entries.map (fun p => (p.1, sortMovements p.2))).foldl
        (fun js p => listProcessDevice extra ff p.1 js p.2) js = js := by
    intro entries
    induction entries with
    | nil => intro js _; rfl
    | cons e entries ih =>
      intro js hall
      simp only [List.map_cons, List.foldl_cons]
      rw [listProcessDevice_allbad extra ff e.1 js e.2 (hall e (List.mem_cons_self _ _))]
      exact ih js (fun e' he' => hall e' (List.mem_cons_of_mem _ he'))
  exact hfold (groupByDevice rows) [] hgroup

theorem counts_details_bridge (rows : List GeofencingRow) (extra : Option Int) :
    (calculateJourneyCounts rows extra).journey_details =
      buildJourneyDetails (buildFacilityTypeMap rows)
        (countsDevicesFold extra rows).journeyCounts := by
  cases rows with
  | nil => rfl
  | cons r rs => rfl

/-- **C9 (amended).** An empty row collection yields the exact all-empty,
all-zero result from either entry point (and never raises — the embedding
is total).  A nonempty collection in which every row is invalid (empty
`device_id` or unparseable `entry_event_time`) yields empty
`counts`/`journey_details`/`journies`, `total = 0`, and empty
generation metadata (`facility_types_found`, `unique_facilities_found`) —
but *not* a fully zeroed result, contrary to the claim as stated:
`total_rows_processed` counts the invalid rows, and
`devices_processed`/`facility_type_map`/`facilities_details` can be
nonempty for them; see the counterexample. -/
theorem claim_C9_empty_input :
    (∀ (extra : Option Int) (ff : Option String),
        calculateJourneyCounts [] extra = ⟨[], [], 0, ⟨0, 0, [], 0, []⟩⟩ ∧
        calculateJourneyList [] extra ff = ⟨[], []⟩) ∧
    (∀ (rows : List GeofencingRow) (extra : Option Int) (ff : Option String),
        (∀ r ∈ rows,
          r.device_id = "" ∨ convertToUnixTimestamp r.entry_event_time = none) →
        (calculateJourneyCounts rows extra).counts = [] ∧
        (calculateJourneyCounts rows extra).journey_details = [] ∧
        (calculateJourneyCounts rows extra).total = 0 ∧
        (calculateJourneyCounts rows extra).metadata.facility_types_found = [] ∧
        (calculateJourneyCounts rows extra).metadata.unique_facilities_found = 0 ∧
        (calculateJourneyList rows extra ff).journies = []) := by
  constructor
  · intro extra ff
    exact ⟨rfl, rfl⟩
  · intro rows extra ff h
    refine ⟨?_, ?_, ?_, ?_, ?_, ?_⟩
    · rw [counts_counts_bridge, countsDevicesFold_allbad extra rows h]
    · rw [counts_details_bridge, countsDevicesFold_allbad extra rows h]
      rfl
    · rw [counts_total_bridge, countsDevicesFold_allbad extra rows h]
      rfl
    · rw [counts_types_bridge, countsDevicesFold_allbad extra rows h]
      rfl
    · rw [counts_unique_bridge, countsDevicesFold_allbad extra rows h]
      rfl
    · rw [list_journies_bridge,
        listDevicesFold_allbad extra (normalizeFromFacility ff) rows h,
        postFilterJournies_nil]

/-- Counterexample to C9 as stated: a nonempty all-invalid collection does
not yield zeroed metadata — the invalid row is counted in
`total_rows_processed` and `devices_processed`, typed in
`facility_type_map`, and listed in `facilities_details`. -/
theorem claim_C9_counterexample :
    (exBadEntryRow.device_id = "" ∨
      convertToUnixTimestamp exBadEntryRow.entry_event_time = none) ∧
    (calculateJourneyCounts [exBadEntryRow] none).metadata.total_rows_processed = 1 ∧
    (calculateJourneyCounts [exBadEntryRow] none).metadata.devices_processed = 1 ∧
    (calculateJourneyList [exBadEntryRow] none none).facilities_details ≠ [] := by
  decide

/-- Witness for C9: the all-invalid conjunct applied at a concrete
one-row collection whose row has an empty `device_id`. -/
theorem claim_C9_empty_input_witness :
    (exBadDevRow.device_id = "" ∨
      convertToUnixTimestamp exBadDevRow.entry_event_time = none) ∧
    ((calculateJourneyCounts [exBadDevRow] none).counts = [] ∧
     (calculateJourneyCounts [exBadDevRow] none).journey_details = [] ∧
     (calculateJourneyCounts [exBadDevRow] none).total = 0 ∧
     (calculateJourneyCounts [exBadDevRow] none).metadata.facility_types_found = [] ∧
     (calculateJourneyCounts [exBadDevRow] none).metadata.unique_facilities_found = 0 ∧
     (calculateJourneyList [exBadDevRow] none none).journies = []) :=
  ⟨by decide, claim_C9_empty_input.2 [exBadDevRow] none none (by decide)⟩
